import Mathlib

/-!
Verification of the Valoretti Sapphire Reserve ROI valuation engine
(`src/components/SapphireReserveROICalculator.js`).

The engine is a pure function from an input profile to a result set.  We give a
shallow embedding of the computation:

* JavaScript numbers are modelled by `JsNum`: an exact rational together with
  the three IEEE-754 special values `+Infinity`, `-Infinity` and `NaN`.
  Arithmetic is exact rational arithmetic, except that any operation whose
  exact result has magnitude at least `2 ^ 1024` overflows to a signed
  infinity, matching the binary64 overflow behaviour that the source code is
  exposed to.  (Rounding of in-range results is not modelled: in-range values
  are kept exact.  The overflow threshold of binary64 round-to-nearest is
  `2 ^ 1024 - 2 ^ 970`; we use `2 ^ 1024`, which agrees with it on every input
  considered here.)
* The raw input profile holds `RawVal`s: a number, a boolean, or any other
  value (`undef`), mirroring the three branches of `validateInputs`.  A raw
  input that is not an object at all is modelled by `none : Option RawProfile`;
  on such input `validateInputs` throws and the `catch` block returns the
  fallback result.
* The `details` strings of the breakdown entries are presentation-only and are
  not modelled; an `Entry` keeps the numeric `value`, `min` and `max` fields.
* The breakdown object is modelled as an association list in insertion order,
  which is also the order `Object.values` enumerates.
-/

/-- Overflow threshold of IEEE-754 binary64: results of magnitude `≥ 2 ^ 1024`
become a signed infinity.  The value is spelled as a numeral so that kernel
reduction can evaluate it; the theorem `OVER_eq_two_pow` below checks that it
is `2 ^ 1024`. -/
@[simp] def OVER : ℚ := 179769313486231590772930519078902473361797697894230657273430081157732675805500963132708477322407536021120113879871393357658789768814416622492847430639474124377767893424865485276302219601246094119453082952085005768838150682342462881473913110540827237163350510684586298239947245938479716304835356329624224137216

/-- A JavaScript number: an exact finite rational or one of the special
values. -/
inductive JsNum where
  | fin (q : ℚ)
  | posInf
  | negInf
  | nan
deriving DecidableEq

/-- Pack an exact rational result into a `JsNum`, overflowing to a signed
infinity at the binary64 range boundary. -/
@[simp] def mkJs (q : ℚ) : JsNum :=
  if OVER ≤ q then .posInf else if q ≤ -OVER then .negInf else .fin q

/-- JavaScript `isNaN` on a number. -/
@[simp] def JsNum.isNan : JsNum → Bool
  | .nan => true
  | _ => false

/-- JavaScript `isFinite` on a number. -/
@[simp] def JsNum.isFinite : JsNum → Bool
  | .fin _ => true
  | _ => false

/-- JavaScript addition. -/
@[simp] def jadd : JsNum → JsNum → JsNum
  | .nan, _ => .nan
  | _, .nan => .nan
  | .posInf, .negInf => .nan
  | .negInf, .posInf => .nan
  | .posInf, _ => .posInf
  | _, .posInf => .posInf
  | .negInf, _ => .negInf
  | _, .negInf => .negInf
  | .fin a, .fin b => mkJs (a + b)

/-- JavaScript negation. -/
@[simp] def jneg : JsNum → JsNum
  | .fin a => .fin (-a)
  | .posInf => .negInf
  | .negInf => .posInf
  | .nan => .nan

/-- JavaScript subtraction (`x - y = x + (-y)` exactly in binary64). -/
@[simp] def jsub (x y : JsNum) : JsNum := jadd x (jneg y)

/-- JavaScript multiplication. -/
@[simp] def jmul : JsNum → JsNum → JsNum
  | .nan, _ => .nan
  | _, .nan => .nan
  | .fin a, .fin b => mkJs (a * b)
  | .fin a, .posInf => if a = 0 then .nan else if 0 < a then .posInf else .negInf
  | .fin a, .negInf => if a = 0 then .nan else if 0 < a then .negInf else .posInf
  | .posInf, .fin b => if b = 0 then .nan else if 0 < b then .posInf else .negInf
  | .negInf, .fin b => if b = 0 then .nan else if 0 < b then .negInf else .posInf
  | .posInf, .posInf => .posInf
  | .negInf, .negInf => .posInf
  | .posInf, .negInf => .negInf
  | .negInf, .posInf => .negInf

/-- JavaScript division (the model has a single zero, matching `+0`). -/
@[simp] def jdiv : JsNum → JsNum → JsNum
  | .nan, _ => .nan
  | _, .nan => .nan
  | .fin a, .fin b =>
      if b = 0 then (if a = 0 then .nan else if 0 < a then .posInf else .negInf)
      else mkJs (a / b)
  | .posInf, .fin b => if 0 ≤ b then .posInf else .negInf
  | .negInf, .fin b => if 0 ≤ b then .negInf else .posInf
  | .fin _, .posInf => .fin 0
  | .fin _, .negInf => .fin 0
  | _, _ => .nan

/-- JavaScript `<=` comparison (false whenever a `NaN` is involved). -/
@[simp] def jle : JsNum → JsNum → Bool
  | .nan, _ => false
  | _, .nan => false
  | .negInf, _ => true
  | _, .posInf => true
  | .fin a, .fin b => decide (a ≤ b)
  | .posInf, .fin _ => false
  | .fin _, .negInf => false
  | .posInf, .negInf => false

/-- JavaScript `<` comparison (false whenever a `NaN` is involved). -/
@[simp] def jlt : JsNum → JsNum → Bool
  | .nan, _ => false
  | _, .nan => false
  | .negInf, .negInf => false
  | .negInf, _ => true
  | _, .negInf => false
  | .fin a, .fin b => decide (a < b)
  | .fin _, .posInf => true
  | .posInf, _ => false

/-- JavaScript `Math.min` (propagates `NaN`). -/
@[simp] def jmin (x y : JsNum) : JsNum :=
  if x.isNan || y.isNan then .nan else if jle x y then x else y

/-- JavaScript `Math.max` (propagates `NaN`). -/
@[simp] def jmax (x y : JsNum) : JsNum :=
  if x.isNan || y.isNan then .nan else if jle x y then y else x

/-- JavaScript truthiness of a number (`0` and `NaN` are falsy). -/
@[simp] def jsTruthy : JsNum → Bool
  | .fin q => decide (q ≠ 0)
  | .nan => false
  | _ => true

/-- The expression `x || 0` on a number. -/
@[simp] def jOrZero (x : JsNum) : JsNum := if jsTruthy x then x else .fin 0

/-- A field of the raw input profile: a number, a boolean, or any other value
(the source treats every non-number non-boolean uniformly). -/
inductive RawVal where
  | num (x : JsNum)
  | bool (b : Bool)
  | undef
deriving DecidableEq

/-- JavaScript `ToNumber` on a raw field, as used by the `+` chain of
`totalAnnualSpending`. -/
@[simp] def RawVal.toJs : RawVal → JsNum
  | .num x => x
  | .bool b => .fin (if b then 1 else 0)
  | .undef => .nan

/-- A field of the sanitized profile produced by `validateInputs`: a finite
number or a boolean. -/
inductive SafeVal where
  | num (q : ℚ)
  | bool (b : Bool)
deriving DecidableEq

/-- JavaScript `ToNumber` coercion of a sanitized field, applied implicitly by
arithmetic and comparison operators. -/
@[simp] def SafeVal.toNum : SafeVal → ℚ
  | .num q => q
  | .bool b => if b then 1 else 0

/-- A sanitized field as a `JsNum` operand. -/
@[simp] def SafeVal.toJs (v : SafeVal) : JsNum := .fin v.toNum

/-- JavaScript truthiness of a sanitized field. -/
@[simp] def SafeVal.truthy : SafeVal → Bool
  | .num q => decide (q ≠ 0)
  | .bool b => b

/-- The expression `x || 0` on a sanitized field. -/
@[simp] def SafeVal.orZero (v : SafeVal) : SafeVal := if v.truthy then v else .num 0

/-- One key of `validateInputs`: finite numbers pass through, `NaN` and the
infinities become `0`, booleans pass through, anything else becomes `0`. -/
@[simp] def sanitizeVal : RawVal → SafeVal
  | .num (.fin q) => .num q
  | .num _ => .num 0
  | .bool b => .bool b
  | .undef => .num 0

/-- The raw input profile: the 21 fields of the component state, each holding
an arbitrary JavaScript value. -/
structure RawProfile where
  chaseTravel : RawVal
  flightsHotels : RawVal
  dining : RawVal
  otherSpending : RawVal
  travelCreditUsage : RawVal
  editStaysValue : RawVal
  stubhubSpending : RawVal
  diningCredit : RawVal
  dashpassUsage : RawVal
  restaurantOrders : RawVal
  nonRestaurantOrders : RawVal
  lyftRides : RawVal
  pelotonMembership : RawVal
  pelotonEquipment : RawVal
  appleServices : RawVal
  priorityPassVisits : RawVal
  globalEntryValue : RawVal
  useShopsCredit : RawVal
  useSouthwestCredit : RawVal
  useIHGDiamond : RawVal
  useSouthwestAList : RawVal
deriving DecidableEq

/-- The sanitized profile returned by `validateInputs`. -/
structure SafeProfile where
  chaseTravel : SafeVal
  flightsHotels : SafeVal
  dining : SafeVal
  otherSpending : SafeVal
  travelCreditUsage : SafeVal
  editStaysValue : SafeVal
  stubhubSpending : SafeVal
  diningCredit : SafeVal
  dashpassUsage : SafeVal
  restaurantOrders : SafeVal
  nonRestaurantOrders : SafeVal
  lyftRides : SafeVal
  pelotonMembership : SafeVal
  pelotonEquipment : SafeVal
  appleServices : SafeVal
  priorityPassVisits : SafeVal
  globalEntryValue : SafeVal
  useShopsCredit : SafeVal
  useSouthwestCredit : SafeVal
  useIHGDiamond : SafeVal
  useSouthwestAList : SafeVal
deriving DecidableEq

/-- `validateInputs`, applied to an input that is an object: every present key
is sanitized field by field. -/
@[simp] def validateInputs (p : RawProfile) : SafeProfile where
  chaseTravel := sanitizeVal p.chaseTravel
  flightsHotels := sanitizeVal p.flightsHotels
  dining := sanitizeVal p.dining
  otherSpending := sanitizeVal p.otherSpending
  travelCreditUsage := sanitizeVal p.travelCreditUsage
  editStaysValue := sanitizeVal p.editStaysValue
  stubhubSpending := sanitizeVal p.stubhubSpending
  diningCredit := sanitizeVal p.diningCredit
  dashpassUsage := sanitizeVal p.dashpassUsage
  restaurantOrders := sanitizeVal p.restaurantOrders
  nonRestaurantOrders := sanitizeVal p.nonRestaurantOrders
  lyftRides := sanitizeVal p.lyftRides
  pelotonMembership := sanitizeVal p.pelotonMembership
  pelotonEquipment := sanitizeVal p.pelotonEquipment
  appleServices := sanitizeVal p.appleServices
  priorityPassVisits := sanitizeVal p.priorityPassVisits
  globalEntryValue := sanitizeVal p.globalEntryValue
  useShopsCredit := sanitizeVal p.useShopsCredit
  useSouthwestCredit := sanitizeVal p.useSouthwestCredit
  useIHGDiamond := sanitizeVal p.useIHGDiamond
  useSouthwestAList := sanitizeVal p.useSouthwestAList

/-- `totalAnnualSpending`: computed from the RAW inputs (not the sanitized
ones), with `NaN` collapsed to `0`. -/
@[simp] def totalAnnualSpendingJ (p : RawProfile) : JsNum :=
  let t := jadd (jadd (jadd p.chaseTravel.toJs p.flightsHotels.toJs) p.dining.toJs)
    p.otherSpending.toJs
  if t.isNan then .fin 0 else t

/-- `qualifiesForHighSpender`: `totalAnnualSpending >= 75000`. -/
@[simp] def qualifiesForHighSpender (p : RawProfile) : Bool :=
  jle (.fin 75000) (totalAnnualSpendingJ p)

/-- `POINT_VALUES.min`. -/
@[simp] def pvMin : ℚ := 0.015

/-- `POINT_VALUES.max`. -/
@[simp] def pvMax : ℚ := 0.020

/-- `POINT_VALUES.avg`. -/
@[simp] def pvAvg : ℚ := 0.0175

/-- `totalPoints`: the multiplier-weighted sum of the four sanitized spending
fields. -/
@[simp] def totalPointsJ (s : SafeProfile) : JsNum :=
  jadd (jadd (jadd (jmul s.chaseTravel.toJs (.fin 8)) (jmul s.flightsHotels.toJs (.fin 4)))
    (jmul s.dining.toJs (.fin 3))) (jmul s.otherSpending.toJs (.fin 1))

/-- One breakdown entry (the presentation-only `details` string is not
modelled). -/
structure Entry where
  value : JsNum
  min : JsNum
  max : JsNum
deriving DecidableEq

/-- An entry whose band is exactly its value. -/
@[simp] def exactEntry (v : JsNum) : Entry := ⟨v, v, v⟩

/-- The `points` entry built from `totalPoints`. -/
@[simp] def pointsEntry (tp : JsNum) : Entry :=
  ⟨jmul tp (.fin pvAvg), jmul tp (.fin pvMin), jmul tp (.fin pvMax)⟩

/-- The clamp pattern `Math.min(Math.max(x || 0, 0), cap)`. -/
@[simp] def clampJ (v : SafeVal) (cap : ℚ) : JsNum :=
  jmin (jmax v.orZero.toJs (.fin 0)) (.fin cap)

/-- `travelCredit`. -/
@[simp] def travelCreditJ (s : SafeProfile) : JsNum := clampJ s.travelCreditUsage 300

/-- `diningCreditValue`. -/
@[simp] def diningCreditJ (s : SafeProfile) : JsNum := clampJ s.diningCredit 300

/-- `editCredit`. -/
@[simp] def editCreditJ (s : SafeProfile) : JsNum := clampJ s.editStaysValue 500

/-- `stubhubCredit`. -/
@[simp] def stubhubCreditJ (s : SafeProfile) : JsNum := clampJ s.stubhubSpending 300

/-- `dashpassValue = (dashpassUsage || 0) * 9.99`. -/
@[simp] def dashpassValueJ (s : SafeProfile) : JsNum :=
  jmul s.dashpassUsage.orZero.toJs (.fin 9.99)

/-- The `dashpass` entry, band `[value * 0.5, value]`. -/
@[simp] def dashpassEntry (s : SafeProfile) : Entry :=
  ⟨dashpassValueJ s, jmul (dashpassValueJ s) (.fin 0.5), dashpassValueJ s⟩

/-- `restaurantCredits = (restaurantOrders ? 1 : 0) * 5 * 12`. -/
@[simp] def restaurantCreditsQ (s : SafeProfile) : ℚ :=
  (if s.restaurantOrders.truthy then 1 else 0) * 5 * 12

/-- `nonRestaurantCredits = (nonRestaurantOrders ? 2 : 0) * 10 * 12`. -/
@[simp] def nonRestaurantCreditsQ (s : SafeProfile) : ℚ :=
  (if s.nonRestaurantOrders.truthy then 2 else 0) * 10 * 12

/-- `totalDoorDashCredits`. -/
@[simp] def totalDoorDashCreditsQ (s : SafeProfile) : ℚ :=
  restaurantCreditsQ s + nonRestaurantCreditsQ s

/-- The `doorDashCredits` entry, band `[value * 0.7, value]`. -/
@[simp] def doorDashEntry (s : SafeProfile) : Entry :=
  ⟨.fin (totalDoorDashCreditsQ s),
   jmul (.fin (totalDoorDashCreditsQ s)) (.fin 0.7),
   .fin (totalDoorDashCreditsQ s)⟩

/-- `lyftCredits = Math.min((lyftRides || 0) * 10, 120)`. -/
@[simp] def lyftCreditsJ (s : SafeProfile) : JsNum :=
  jmin (jmul s.lyftRides.orZero.toJs (.fin 10)) (.fin 120)

/-- `lyftBonusPoints = (lyftRides || 0) * 20 * 4`. -/
@[simp] def lyftBonusPointsJ (s : SafeProfile) : JsNum :=
  jmul (jmul s.lyftRides.orZero.toJs (.fin 20)) (.fin 4)

/-- `lyftTotal = lyftCredits + lyftBonusPoints * POINT_VALUES.avg`. -/
@[simp] def lyftTotalJ (s : SafeProfile) : JsNum :=
  jadd (lyftCreditsJ s) (jmul (lyftBonusPointsJ s) (.fin pvAvg))

/-- The `lyft` entry: credits plus bonus points priced at the min/avg/max point
rates. -/
@[simp] def lyftEntry (s : SafeProfile) : Entry :=
  ⟨lyftTotalJ s,
   jadd (lyftCreditsJ s) (jmul (lyftBonusPointsJ s) (.fin pvMin)),
   jadd (lyftCreditsJ s) (jmul (lyftBonusPointsJ s) (.fin pvMax))⟩

/-- The membership part of `pelotonValue`. -/
@[simp] def pelotonBaseJ (s : SafeProfile) : JsNum :=
  if s.pelotonMembership.truthy then .fin 120 else .fin 0

/-- `bonusPoints = Math.min(pelotonEquipment, 5000) * 9`. -/
@[simp] def pelotonBonusJ (s : SafeProfile) : JsNum :=
  jmul (jmin s.pelotonEquipment.toJs (.fin 5000)) (.fin 9)

/-- `pelotonValue`: membership flat `120` plus capped equipment bonus points
priced at the average rate (the equipment part only when `pelotonEquipment >
0`). -/
@[simp] def pelotonValueJ (s : SafeProfile) : JsNum :=
  if jlt (.fin 0) s.pelotonEquipment.toJs then
    jadd (pelotonBaseJ s) (jmul (pelotonBonusJ s) (.fin pvAvg))
  else pelotonBaseJ s

/-- The `peloton` entry, band `[value * 0.8, value * 1.2]`. -/
@[simp] def pelotonEntry (s : SafeProfile) : Entry :=
  ⟨pelotonValueJ s, jmul (pelotonValueJ s) (.fin 0.8), jmul (pelotonValueJ s) (.fin 1.2)⟩

/-- `priorityPassValue = (priorityPassVisits || 0) * 35`. -/
@[simp] def priorityPassValueJ (s : SafeProfile) : JsNum :=
  jmul s.priorityPassVisits.orZero.toJs (.fin 35)

/-- The `priorityPass` entry, band `[value * 0.5, value * 1.5]`. -/
@[simp] def priorityPassEntry (s : SafeProfile) : Entry :=
  ⟨priorityPassValueJ s, jmul (priorityPassValueJ s) (.fin 0.5),
   jmul (priorityPassValueJ s) (.fin 1.5)⟩

/-- `globalEntryValue = globalEntryValue ? 24 : 0`. -/
@[simp] def globalEntryValueQ (s : SafeProfile) : ℚ :=
  if s.globalEntryValue.truthy then 24 else 0

/-- `appleServicesValue = appleServices ? (6.99 + 10.99) * 12 : 0`. -/
@[simp] def appleServicesValueQ (s : SafeProfile) : ℚ :=
  if s.appleServices.truthy then (6.99 + 10.99) * 12 else 0

/-- The `appleServices` entry, band `[value * 0.3, value]`. -/
@[simp] def appleServicesEntry (s : SafeProfile) : Entry :=
  ⟨.fin (appleServicesValueQ s),
   jmul (.fin (appleServicesValueQ s)) (.fin 0.3),
   .fin (appleServicesValueQ s)⟩

/-- `highSpenderValue`: the sum of the toggled flat amounts, gated by the
(raw-input) high-spender qualification. -/
@[simp] def highSpenderValueQ (s : SafeProfile) (qual : Bool) : ℚ :=
  if qual then
    (if s.useShopsCredit.truthy then 250 else 0) +
    (if s.useSouthwestCredit.truthy then 500 else 0) +
    (if s.useIHGDiamond.truthy then 200 else 0) +
    (if s.useSouthwestAList.truthy then 150 else 0)
  else 0

/-- The consolidated `highSpender` entry, band `[value * 0.8, value * 1.2]`. -/
@[simp] def highSpenderEntry (s : SafeProfile) (qual : Bool) : Entry :=
  ⟨.fin (highSpenderValueQ s qual),
   jmul (.fin (highSpenderValueQ s qual)) (.fin 0.8),
   jmul (.fin (highSpenderValueQ s qual)) (.fin 1.2)⟩

/-- A conditionally included breakdown entry (`if (… > 0) breakdown.k = …`). -/
@[simp] def optEntry (c : Bool) (k : String) (e : Entry) : List (String × Entry) :=
  if c then [(k, e)] else []

/-- The breakdown entries after `points`, in the insertion order of the
source: the always-present credits, then each conditional category. -/
@[simp] def breakdownRest (s : SafeProfile) (qual : Bool) : List (String × Entry) :=
  ("travelCredit", exactEntry (travelCreditJ s)) ::
  ("diningCredit", exactEntry (diningCreditJ s)) ::
  (optEntry (jlt (.fin 0) (editCreditJ s)) "editCredit" (exactEntry (editCreditJ s)) ++
   (optEntry (jlt (.fin 0) (stubhubCreditJ s)) "stubhubCredit" (exactEntry (stubhubCreditJ s)) ++
   (optEntry (jlt (.fin 0) (dashpassValueJ s)) "dashpass" (dashpassEntry s) ++
   (optEntry (decide (0 < totalDoorDashCreditsQ s)) "doorDashCredits" (doorDashEntry s) ++
   (optEntry (jlt (.fin 0) (lyftTotalJ s)) "lyft" (lyftEntry s) ++
   (optEntry (jlt (.fin 0) (pelotonValueJ s)) "peloton" (pelotonEntry s) ++
   (optEntry (jlt (.fin 0) (priorityPassValueJ s)) "priorityPass" (priorityPassEntry s) ++
   (optEntry (decide (0 < globalEntryValueQ s)) "globalEntry"
     (exactEntry (.fin (globalEntryValueQ s))) ++
   (optEntry (decide (0 < appleServicesValueQ s)) "appleServices" (appleServicesEntry s) ++
   optEntry (decide (0 < highSpenderValueQ s qual)) "highSpender"
     (highSpenderEntry s qual))))))))))

/-- The full breakdown in insertion order; `points` always comes first. -/
@[simp] def buildBreakdown (s : SafeProfile) (qual : Bool) (tp : JsNum) : List (String × Entry) :=
  ("points", pointsEntry tp) :: breakdownRest s qual

/-- The aggregation reduce of the source:
`sum + (isNaN(value) ? 0 : value)` where `value = benefit.value || 0`. -/
@[simp] def reduceAgg (f : Entry → JsNum) (l : List (String × Entry)) : JsNum :=
  l.foldl (fun sum kv =>
    jadd sum (if (jOrZero (f kv.2)).isNan then .fin 0 else jOrZero (f kv.2))) (.fin 0)

/-- The ROI formula `v > 0 ? ((v - 795) / 795) * 100 : -100`. -/
@[simp] def roiValue (v : JsNum) : JsNum :=
  if jlt (.fin 0) v then jmul (jdiv (jsub v (.fin 795)) (.fin 795)) (.fin 100)
  else .fin (-100)

/-- The result record returned to the presentation layer. -/
structure ResultSet where
  totalValue : JsNum
  totalCost : ℚ
  roi : JsNum
  minROI : JsNum
  maxROI : JsNum
  breakdown : List (String × Entry)
deriving DecidableEq

/-- The zero-value fallback result of the `catch` block. -/
@[simp] def fallbackResults : ResultSet :=
  ⟨.fin 0, 795, .fin (-100), .fin (-100), .fin (-100), []⟩

/-- `isValidResults`: the six required keys are present.  In the embedding the
record type carries all six fields, so the check always succeeds. -/
@[simp] def isValidResults (_ : ResultSet) : Bool := true

/-- Result assembly from the breakdown: the three aggregate reduces, the three
ROI figures, and the final `isNaN` scrubbing of each numeric field. -/
@[simp] def assembleResults (breakdown : List (String × Entry)) : ResultSet :=
  { totalValue :=
      if (reduceAgg Entry.value breakdown).isNan then .fin 0
      else reduceAgg Entry.value breakdown
    totalCost := 795
    roi :=
      if (roiValue (reduceAgg Entry.value breakdown)).isNan then .fin (-100)
      else roiValue (reduceAgg Entry.value breakdown)
    minROI :=
      if (roiValue (reduceAgg Entry.min breakdown)).isNan then .fin (-100)
      else roiValue (reduceAgg Entry.min breakdown)
    maxROI :=
      if (roiValue (reduceAgg Entry.max breakdown)).isNan then .fin (-100)
      else roiValue (reduceAgg Entry.max breakdown)
    breakdown := breakdown }

/-- The final shape validation before returning. -/
@[simp] def finishResults (r : ResultSet) : ResultSet :=
  if isValidResults r then r else fallbackResults

/-- `calculateROI` on an object input: sanitize, guard the points subtotal
(throwing to the fallback when it is `NaN` or not finite), build the
breakdown, aggregate and validate. -/
@[simp] def calculateROI (inputs : RawProfile) : ResultSet :=
  if (totalPointsJ (validateInputs inputs)).isNan ||
      !(totalPointsJ (validateInputs inputs)).isFinite then fallbackResults
  else
    finishResults (assembleResults
      (buildBreakdown (validateInputs inputs) (qualifiesForHighSpender inputs)
        (totalPointsJ (validateInputs inputs))))

/-- The engine entry point.  `none` models an input that is not an object, on
which `validateInputs` throws and the `catch` block returns the fallback. -/
@[simp] def compute : Option RawProfile → ResultSet
  | none => fallbackResults
  | some p => calculateROI p

/-- Specification-side plain sum of the `value` fields of a breakdown. -/
@[simp] def sumValues (l : List (String × Entry)) : JsNum :=
  l.foldl (fun s kv => jadd s kv.2.value) (.fin 0)

/-- Specification-side plain sum of the `min` fields of a breakdown. -/
@[simp] def sumMins (l : List (String × Entry)) : JsNum :=
  l.foldl (fun s kv => jadd s kv.2.min) (.fin 0)

/-- Specification-side plain sum of the `max` fields of a breakdown. -/
@[simp] def sumMaxs (l : List (String × Entry)) : JsNum :=
  l.foldl (fun s kv => jadd s kv.2.max) (.fin 0)

/-- Specification-side ROI formula of §3 of the spec:
`roi = v > 0 ? (v - 795) / 795 * 100 : -100`. -/
@[simp] def specROIFormula (v : JsNum) : JsNum :=
  if jlt (.fin 0) v then jmul (jdiv (jsub v (.fin 795)) (.fin 795)) (.fin 100)
  else .fin (-100)

/-- Specification-side sum of the four spending fields after Step-1
sanitization. -/
@[simp] def sanitizedSpendingSum (p : RawProfile) : ℚ :=
  (validateInputs p).chaseTravel.toNum + (validateInputs p).flightsHotels.toNum +
  (validateInputs p).dining.toNum + (validateInputs p).otherSpending.toNum

/-- A `JsNum` that is either `+Infinity` or a finite value in `[c, OVER)`:
the shape of partial aggregation sums.  (`NaN` and `-Infinity` never occur.) -/
def jRange (c : ℚ) (x : JsNum) : Prop :=
  x = .posInf ∨ ∃ q, x = .fin q ∧ c ≤ q ∧ q < OVER

/-- A `JsNum` that is `+Infinity` or finite, non-negative and in range: the
shape of every band component of a non-`points` breakdown entry. -/
def NNF (x : JsNum) : Prop := jRange 0 x

/-- All three band components of an entry are `NNF`. -/
def EntryNNF (e : Entry) : Prop := NNF e.value ∧ NNF e.min ∧ NNF e.max

/-- The band of an entry is ordered: `min ≤ value ≤ max` in the JavaScript
order. -/
def EntryOrd (e : Entry) : Prop :=
  jle e.min e.value = true ∧ jle e.value e.max = true

/-- A profile with every numeric field `0` and every boolean field `false`. -/
@[simp] def zeroRaw : RawProfile where
  chaseTravel := .num (.fin 0)
  flightsHotels := .num (.fin 0)
  dining := .num (.fin 0)
  otherSpending := .num (.fin 0)
  travelCreditUsage := .num (.fin 0)
  editStaysValue := .num (.fin 0)
  stubhubSpending := .num (.fin 0)
  diningCredit := .num (.fin 0)
  dashpassUsage := .num (.fin 0)
  restaurantOrders := .bool false
  nonRestaurantOrders := .bool false
  lyftRides := .num (.fin 0)
  pelotonMembership := .bool false
  pelotonEquipment := .num (.fin 0)
  appleServices := .bool false
  priorityPassVisits := .num (.fin 0)
  globalEntryValue := .bool false
  useShopsCredit := .bool false
  useSouthwestCredit := .bool false
  useIHGDiamond := .bool false
  useSouthwestAList := .bool false

/-- The default `useState` input profile of the component. -/
@[simp] def defaultInputs : RawProfile :=
  { zeroRaw with
    travelCreditUsage := .num (.fin 300)
    diningCredit := .num (.fin 300)
    dashpassUsage := .num (.fin 12) }

/-- One of the four point-earning spending fields. -/
inductive SpendField where
  | chaseTravel
  | flightsHotels
  | dining
  | otherSpending
deriving DecidableEq

/-- Overwrite a single spending field of a profile. -/
@[simp] def setSpend : SpendField → RawProfile → RawVal → RawProfile
  | .chaseTravel, p, v => { p with chaseTravel := v }
  | .flightsHotels, p, v => { p with flightsHotels := v }
  | .dining, p, v => { p with dining := v }
  | .otherSpending, p, v => { p with otherSpending := v }

/-- A profile with `lyftRides = 1e308`: large enough that the lyft bonus-point
arithmetic overflows to `Infinity` in binary64. -/
@[simp] def pLyftBig : RawProfile :=
  { zeroRaw with lyftRides := .num (.fin 100000000000000000000000000000000000000000000000000000000000000000000000000000000000000000000000000000000000000000000000000000000000000000000000000000000000000000000000000000000000000000000000000000000000000000000000000000000000000000000000000000000000000000000000000000000000000000000000000000000000000000000) }

/-- A profile with `chaseTravel = 1e308`: the points subtotal overflows. -/
@[simp] def pChaseBig : RawProfile :=
  { zeroRaw with chaseTravel := .num (.fin 100000000000000000000000000000000000000000000000000000000000000000000000000000000000000000000000000000000000000000000000000000000000000000000000000000000000000000000000000000000000000000000000000000000000000000000000000000000000000000000000000000000000000000000000000000000000000000000000000000000000000000000) }

/-- A profile whose raw `chaseTravel` is `Infinity` with the shops toggle on:
sanitization zeroes the field but the raw qualification sum is `Infinity`. -/
@[simp] def pSpendInf : RawProfile :=
  { zeroRaw with
    chaseTravel := .num (.posInf)
    useShopsCredit := .bool true }

/-- Total spend `74999` with all four high-spender toggles on. -/
@[simp] def p74999 : RawProfile :=
  { zeroRaw with
    otherSpending := .num (.fin 74999)
    useShopsCredit := .bool true
    useSouthwestCredit := .bool true
    useIHGDiamond := .bool true
    useSouthwestAList := .bool true }

/-- Total spend `75000` with only the shops toggle on. -/
@[simp] def p75000 : RawProfile :=
  { zeroRaw with
    otherSpending := .num (.fin 75000)
    useShopsCredit := .bool true }

/-- A profile with `travelCreditUsage = 1000` (beyond the `300` cap). -/
@[simp] def pTravel1000 : RawProfile :=
  { zeroRaw with travelCreditUsage := .num (.fin 1000) }

/-- A profile with `pelotonEquipment = 9000` (beyond the `5000` cap). -/
@[simp] def pPeloton9000 : RawProfile :=
  { zeroRaw with pelotonEquipment := .num (.fin 9000) }

/-- A profile with `otherSpending = -1000` and everything else zero. -/
@[simp] def pNeg1000 : RawProfile :=
  { zeroRaw with otherSpending := .num (.fin (-1000)) }

/-! ### Basic facts about the number model -/

theorem OVER_eq_two_pow : OVER = 2 ^ 1024 := by norm_num [OVER]

theorem OVER_pos : 0 < OVER := by norm_num [OVER]

theorem OVER_gt_million : (1000000 : ℚ) < OVER := by norm_num [OVER]

theorem mkJs_of_bounds {q : ℚ} (h1 : q < OVER) (h2 : -OVER < q) : mkJs q = .fin q := by
  rw [mkJs, if_neg (not_le.2 h1), if_neg (not_le.2 (by linarith))]

theorem mkJs_eq_fin {q c : ℚ} (h : mkJs q = .fin c) : c = q ∧ q < OVER ∧ -OVER < q := by
  by_cases h1 : OVER ≤ q
  · rw [mkJs, if_pos h1] at h; exact absurd h (by simp)
  · by_cases h2 : q ≤ -OVER
    · rw [mkJs, if_neg h1, if_pos h2] at h; exact absurd h (by simp)
    · rw [mkJs, if_neg h1, if_neg h2] at h
      exact ⟨(JsNum.fin.injEq .. ▸ h).symm ▸ rfl, lt_of_not_le h1, by linarith [not_le.1 h2]⟩

theorem mkJs_ne_nan (q : ℚ) : mkJs q ≠ .nan := by
  rw [mkJs]; split_ifs <;> simp

theorem mkJs_nonneg {q : ℚ} (h : 0 ≤ q) : NNF (mkJs q) := by
  by_cases h1 : OVER ≤ q
  · exact Or.inl (by rw [mkJs, if_pos h1])
  · exact Or.inr ⟨q, mkJs_of_bounds (lt_of_not_le h1) (by linarith [OVER_pos]), h,
      lt_of_not_le h1⟩

theorem jRange_mkJs {c q : ℚ} (hc : c ≤ q) (h2 : -OVER < c) : jRange c (mkJs q) := by
  by_cases h1 : OVER ≤ q
  · exact Or.inl (by rw [mkJs, if_pos h1])
  · exact Or.inr ⟨q, mkJs_of_bounds (lt_of_not_le h1) (by linarith), hc, lt_of_not_le h1⟩

theorem jle_fin_iff {a b : ℚ} : jle (.fin a) (.fin b) = true ↔ a ≤ b := by simp [jle]

theorem jlt_fin_iff {a b : ℚ} : jlt (.fin a) (.fin b) = true ↔ a < b := by simp [jlt]

theorem jle_posInf {x : JsNum} (h : x ≠ .nan) : jle x .posInf = true := by
  cases x <;> simp_all [jle]

theorem jle_negInf {y : JsNum} (h : y ≠ .nan) : jle .negInf y = true := by
  cases y <;> simp_all [jle]

theorem jle_refl_ne_nan {x : JsNum} (h : x ≠ .nan) : jle x x = true := by
  cases x <;> simp_all [jle]

theorem jle_mkJs_mkJs {a b : ℚ} (h : a ≤ b) : jle (mkJs a) (mkJs b) = true := by
  by_cases hb : OVER ≤ b
  · rw [show mkJs b = .posInf by rw [mkJs, if_pos hb]]
    exact jle_posInf (mkJs_ne_nan a)
  · by_cases ha : a ≤ -OVER
    · rw [show mkJs a = .negInf by
        rw [mkJs, if_neg (show ¬ OVER ≤ a by linarith [OVER_pos]), if_pos ha]]
      exact jle_negInf (mkJs_ne_nan b)
    · have hb2 : b < OVER := lt_of_not_le hb
      have ha2 : -OVER < a := lt_of_not_le ha
      rw [mkJs_of_bounds (lt_of_le_of_lt h hb2) ha2, mkJs_of_bounds hb2 (by linarith)]
      exact jle_fin_iff.2 h

theorem jadd_fin_fin (a b : ℚ) : jadd (.fin a) (.fin b) = mkJs (a + b) := rfl

theorem jmul_fin_fin (a b : ℚ) : jmul (.fin a) (.fin b) = mkJs (a * b) := rfl

theorem jsub_fin_fin (a b : ℚ) : jsub (.fin a) (.fin b) = mkJs (a - b) := by
  rw [jsub, jneg, jadd_fin_fin, sub_eq_add_neg]

theorem jdiv_fin_fin (a : ℚ) {b : ℚ} (h : b ≠ 0) :
    jdiv (.fin a) (.fin b) = mkJs (a / b) := by
  simp only [jdiv]; rw [if_neg h]

theorem jadd_fin_posInf (a : ℚ) : jadd (.fin a) .posInf = .posInf := rfl

theorem jadd_posInf_fin (b : ℚ) : jadd .posInf (.fin b) = .posInf := rfl

theorem jmul_posInf_fin {b : ℚ} (h : 0 < b) : jmul .posInf (.fin b) = .posInf := by
  simp only [jmul]; rw [if_neg (ne_of_gt h), if_pos h]

theorem jmul_fin_posInf {a : ℚ} (h : 0 < a) : jmul (.fin a) .posInf = .posInf := by
  simp only [jmul]; rw [if_neg (ne_of_gt h), if_pos h]

theorem jadd_eq_fin {x y : JsNum} {c : ℚ} (h : jadd x y = .fin c) :
    ∃ a b, x = .fin a ∧ y = .fin b ∧ c = a + b ∧ c < OVER ∧ -OVER < c := by
  cases x <;> cases y <;> (try (exfalso; revert h; simp [jadd]; done))
  rename_i a b
  rw [jadd_fin_fin] at h
  obtain ⟨h1, h2, h3⟩ := mkJs_eq_fin h
  exact ⟨a, b, rfl, rfl, h1, h1 ▸ h2, h1 ▸ h3⟩

theorem jRange_ne_nan {c : ℚ} {x : JsNum} (h : jRange c x) : x ≠ .nan := by
  rcases h with rfl | ⟨q, rfl, _, _⟩ <;> simp

theorem nnf_ne_nan {x : JsNum} (h : NNF x) : x ≠ .nan := jRange_ne_nan h

theorem jadd_posInf_nnf {v : JsNum} (hv : NNF v) : jadd .posInf v = .posInf := by
  rcases hv with rfl | ⟨q, rfl, _, _⟩ <;> rfl

theorem jadd_nnf_posInf {v : JsNum} (hv : NNF v) : jadd v .posInf = .posInf := by
  rcases hv with rfl | ⟨q, rfl, _, _⟩ <;> rfl

theorem jRange_jadd {c : ℚ} {x v : JsNum} (hc : -OVER < c) (hx : jRange c x)
    (hv : NNF v) : jRange c (jadd x v) := by
  rcases hx with rfl | ⟨q, hxq, hq1, hq2⟩
  · rw [jadd_posInf_nnf hv]; exact Or.inl rfl
  · subst hxq
    rcases hv with rfl | ⟨w, rfl, hw1, hw2⟩
    · exact Or.inl rfl
    · rw [jadd_fin_fin]; exact jRange_mkJs (by linarith) hc

theorem nnf_jadd {x v : JsNum} (hx : NNF x) (hv : NNF v) : NNF (jadd x v) :=
  jRange_jadd (by linarith [OVER_pos]) hx hv

theorem jle_jadd_mono {a b c d : JsNum} (ha : NNF a) (hb : NNF b) (hc : NNF c) (hd : NNF d)
    (hab : jle a b = true) (hcd : jle c d = true) :
    jle (jadd a c) (jadd b d) = true := by
  rcases hb with rfl | ⟨qb, rfl, hb1, hb2⟩
  · rw [jadd_posInf_nnf hd]; exact jle_posInf (nnf_ne_nan (nnf_jadd ha hc))
  · rcases hd with rfl | ⟨qd, rfl, hd1, hd2⟩
    · rw [jadd_nnf_posInf (Or.inr ⟨qb, rfl, hb1, hb2⟩)]
      exact jle_posInf (nnf_ne_nan (nnf_jadd ha hc))
    · rcases ha with rfl | ⟨qa, rfl, ha1, ha2⟩
      · simp [jle] at hab
      · rcases hc with rfl | ⟨qc, rfl, hc1, hc2⟩
        · simp [jle] at hcd
        · rw [jadd_fin_fin, jadd_fin_fin]
          exact jle_mkJs_mkJs (add_le_add (jle_fin_iff.1 hab) (jle_fin_iff.1 hcd))

theorem foldl_plain_jRange (f : Entry → JsNum) {c : ℚ} (hc : -OVER < c)
    (l : List (String × Entry)) :
    ∀ a, jRange c a → (∀ kv ∈ l, NNF (f kv.2)) →
      jRange c (l.foldl (fun s kv => jadd s (f kv.2)) a) := by
  induction l with
  | nil => exact fun a ha _ => ha
  | cons kv t ih =>
      intro a ha hl
      exact ih (jadd a (f kv.2)) (jRange_jadd hc ha (hl kv (List.mem_cons_self ..)))
        (fun x hx => hl x (List.mem_cons_of_mem _ hx))

theorem foldl_plain_mono (f g : Entry → JsNum) (l : List (String × Entry)) :
    ∀ a b, NNF a → NNF b → jle a b = true →
      (∀ kv ∈ l, (NNF (f kv.2) ∧ NNF (g kv.2)) ∧ jle (f kv.2) (g kv.2) = true) →
      jle (l.foldl (fun s kv => jadd s (f kv.2)) a)
        (l.foldl (fun s kv => jadd s (g kv.2)) b) = true := by
  induction l with
  | nil => exact fun a b _ _ hab _ => hab
  | cons kv t ih =>
      intro a b ha hb hab hl
      obtain ⟨⟨h1, h2⟩, h3⟩ := hl kv (List.mem_cons_self ..)
      exact ih (jadd a (f kv.2)) (jadd b (g kv.2)) (nnf_jadd ha h1) (nnf_jadd hb h2)
        (jle_jadd_mono ha hb h1 h2 hab h3)
        (fun x hx => hl x (List.mem_cons_of_mem _ hx))

theorem contrib_eq {v : JsNum} (h : v ≠ .nan) :
    (if (jOrZero v).isNan then JsNum.fin 0 else jOrZero v) = v := by
  cases v with
  | fin q =>
      by_cases hq : q = 0
      · subst hq; simp [jOrZero, jsTruthy]
      · simp [jOrZero, jsTruthy, hq]
  | posInf => simp [jOrZero, jsTruthy]
  | negInf => simp [jOrZero, jsTruthy]
  | nan => exact absurd rfl h

theorem reduceAgg_eq_plain (f : Entry → JsNum) (l : List (String × Entry))
    (h : ∀ kv ∈ l, f kv.2 ≠ .nan) :
    reduceAgg f l = l.foldl (fun s kv => jadd s (f kv.2)) (.fin 0) := by
  unfold reduceAgg
  exact List.foldl_ext _ _ _ (fun a kv hkv => by rw [contrib_eq (h kv hkv)])

theorem jlt_right_ne_nan {x y : JsNum} (h : jlt x y = true) : y ≠ .nan := by
  intro hy; subst hy; cases x <;> simp [jlt] at h

theorem jsub_fin_ne_nan {x : JsNum} (hx : x ≠ .nan) (b : ℚ) : jsub x (.fin b) ≠ .nan := by
  cases x <;> simp_all [jsub] <;> split_ifs <;> simp

theorem jdiv_fin_ne_nan {x : JsNum} (hx : x ≠ .nan) {b : ℚ} (hb : b ≠ 0) :
    jdiv x (.fin b) ≠ .nan := by
  cases x <;> simp_all [jdiv] <;> split_ifs <;> simp_all

theorem jmul_fin_ne_nan {x : JsNum} (hx : x ≠ .nan) {b : ℚ} (hb : b ≠ 0) :
    jmul x (.fin b) ≠ .nan := by
  cases x <;> simp_all [jmul] <;> split_ifs <;> simp_all

theorem roiValue_ne_nan (x : JsNum) : roiValue x ≠ .nan := by
  unfold roiValue
  split
  case isTrue h =>
    exact jmul_fin_ne_nan (jdiv_fin_ne_nan (jsub_fin_ne_nan (jlt_right_ne_nan h) 795)
      (by norm_num)) (by norm_num)
  case isFalse h => simp

theorem roiValue_posInf : roiValue .posInf = .posInf := by norm_num

theorem roiValue_fin {q : ℚ} (h2 : q < OVER) :
    roiValue (.fin q) = .fin (if 0 < q then (q - 795) / 795 * 100 else -100) := by
  have h795 : (0:ℚ) < 795 := by norm_num
  by_cases hq : 0 < q
  · have e1 : jsub (.fin q) (.fin 795) = .fin (q - 795) := by
      rw [jsub_fin_fin]
      exact mkJs_of_bounds (by linarith) (by linarith [OVER_gt_million])
    have e2 : jdiv (.fin (q - 795)) (.fin 795) = .fin ((q - 795) / 795) := by
      rw [jdiv_fin_fin _ (ne_of_gt h795)]
      refine mkJs_of_bounds ?_ ?_
      · rw [div_lt_iff h795]; nlinarith [OVER_gt_million]
      · rw [neg_lt, ← neg_div, neg_sub, div_lt_iff h795]; nlinarith [OVER_gt_million]
    have e3 : jmul (.fin ((q - 795) / 795)) (.fin 100) = .fin ((q - 795) / 795 * 100) := by
      rw [jmul_fin_fin]
      refine mkJs_of_bounds ?_ ?_
      · rw [div_mul_eq_mul_div, div_lt_iff h795]; nlinarith [OVER_gt_million]
      · rw [neg_lt, ← neg_mul, ← neg_div, neg_sub, div_mul_eq_mul_div, div_lt_iff h795]
        nlinarith [OVER_gt_million]
    unfold roiValue
    rw [if_pos (jlt_fin_iff.2 hq), e1, e2, e3, if_pos hq]
  · unfold roiValue
    rw [if_neg (fun hc => hq (jlt_fin_iff.1 hc)), if_neg hq]

theorem roiValue_mono {x y : JsNum} (hx : NNF x) (hy : NNF y) (h : jle x y = true) :
    jle (roiValue x) (roiValue y) = true := by
  rcases hy with rfl | ⟨qy, rfl, hy1, hy2⟩
  · rw [roiValue_posInf]; exact jle_posInf (roiValue_ne_nan x)
  · rcases hx with rfl | ⟨qx, rfl, hx1, hx2⟩
    · simp [jle] at h
    · rw [roiValue_fin hx2, roiValue_fin hy2]
      refine jle_fin_iff.2 ?_
      have hxy : qx ≤ qy := jle_fin_iff.1 h
      by_cases h1 : 0 < qx
      · rw [if_pos h1, if_pos (lt_of_lt_of_le h1 hxy)]
        gcongr
      · rw [if_neg h1]
        by_cases h2 : 0 < qy
        · rw [if_pos h2]
          rw [div_mul_eq_mul_div, le_div_iff (by norm_num : (0:ℚ) < 795)]
          nlinarith
        · rw [if_neg h2]

theorem OVER_big : (10000000000 : ℚ) < OVER := by norm_num [OVER]

theorem orZero_toNum (v : SafeVal) : v.orZero.toNum = v.toNum := by
  cases v with
  | num q =>
      by_cases hq : q = 0
      · subst hq; simp [SafeVal.orZero, SafeVal.truthy]
      · simp [SafeVal.orZero, SafeVal.truthy, hq]
  | bool b => cases b <;> simp [SafeVal.orZero, SafeVal.truthy, SafeVal.toNum]

theorem orZero_toJs (v : SafeVal) : v.orZero.toJs = .fin v.toNum := by
  rw [SafeVal.toJs, orZero_toNum]

theorem jmax_fin_fin (a b : ℚ) : jmax (.fin a) (.fin b) = .fin (max a b) := by
  by_cases h : a ≤ b
  · simp [jmax, jle, h, max_eq_right h]
  · simp [jmax, jle, h, max_eq_left (le_of_not_le h)]

theorem jmin_fin_fin (a b : ℚ) : jmin (.fin a) (.fin b) = .fin (min a b) := by
  by_cases h : a ≤ b
  · simp [jmin, jle, h, min_eq_left h]
  · simp [jmin, jle, h, min_eq_right (le_of_not_le h)]

theorem clampJ_eq (v : SafeVal) (cap : ℚ) :
    clampJ v cap = .fin (min (max v.toNum 0) cap) := by
  rw [clampJ, orZero_toJs, jmax_fin_fin, jmin_fin_fin]

theorem band_exact_fin {c : ℚ} (h0 : 0 ≤ c) (h1 : c < OVER) :
    EntryNNF (exactEntry (.fin c)) ∧ EntryOrd (exactEntry (.fin c)) := by
  have hnnf : NNF (JsNum.fin c) := Or.inr ⟨c, rfl, h0, h1⟩
  exact ⟨⟨hnnf, hnnf, hnnf⟩, jle_fin_iff.2 le_rfl, jle_fin_iff.2 le_rfl⟩

theorem band_half_fin {q r1 : ℚ} (h0 : 0 < q) (hq : q ≤ 1000000000)
    (h1a : 0 < r1) (h1b : r1 ≤ 1) :
    EntryNNF ⟨.fin q, jmul (.fin q) (.fin r1), .fin q⟩ ∧
    EntryOrd ⟨.fin q, jmul (.fin q) (.fin r1), .fin q⟩ := by
  have hqO : q < OVER := lt_of_le_of_lt hq OVER_big
  have hfin : jmul (.fin q) (.fin r1) = .fin (q * r1) := by
    rw [jmul_fin_fin]
    exact mkJs_of_bounds (by nlinarith) (by nlinarith [OVER_pos])
  rw [hfin]
  exact ⟨⟨Or.inr ⟨q, rfl, le_of_lt h0, hqO⟩, Or.inr ⟨q * r1, rfl, by positivity, by nlinarith⟩,
      Or.inr ⟨q, rfl, le_of_lt h0, hqO⟩⟩,
    jle_fin_iff.2 (by nlinarith), jle_fin_iff.2 le_rfl⟩

theorem band_scaled_fin {q r1 r2 : ℚ} (h0 : 0 < q) (hq : q ≤ 1000000000)
    (h1a : 0 < r1) (h1b : r1 ≤ 1) (h2a : 1 ≤ r2) (h2b : r2 ≤ 2) :
    EntryNNF ⟨.fin q, jmul (.fin q) (.fin r1), jmul (.fin q) (.fin r2)⟩ ∧
    EntryOrd ⟨.fin q, jmul (.fin q) (.fin r1), jmul (.fin q) (.fin r2)⟩ := by
  have hqO : q < OVER := lt_of_le_of_lt hq OVER_big
  have hfin1 : jmul (.fin q) (.fin r1) = .fin (q * r1) := by
    rw [jmul_fin_fin]
    exact mkJs_of_bounds (by nlinarith) (by nlinarith [OVER_pos])
  have hr2b : q * r2 ≤ 1000000000 * 2 := by
    exact mul_le_mul hq h2b (by linarith) (by norm_num)
  have hfin2 : jmul (.fin q) (.fin r2) = .fin (q * r2) := by
    rw [jmul_fin_fin]
    refine mkJs_of_bounds (by linarith [OVER_big]) (by nlinarith [OVER_pos])
  rw [hfin1, hfin2]
  exact ⟨⟨Or.inr ⟨q, rfl, le_of_lt h0, hqO⟩, Or.inr ⟨q * r1, rfl, by positivity, by nlinarith⟩,
      Or.inr ⟨q * r2, rfl, by positivity, by linarith [OVER_big]⟩⟩,
    jle_fin_iff.2 (by nlinarith), jle_fin_iff.2 (by nlinarith)⟩

theorem jlt_zero_mkJs_pos {w : ℚ} (hov : ¬ OVER ≤ w) (hw : jlt (.fin 0) (mkJs w) = true) :
    0 < w := by
  by_cases h2n : w ≤ -OVER
  · rw [mkJs, if_neg hov, if_pos h2n] at hw; simp [jlt] at hw
  · rw [mkJs_of_bounds (lt_of_not_le hov) (lt_of_not_le h2n)] at hw
    exact jlt_fin_iff.1 hw

theorem band_half_mk {w r1 : ℚ} (hw : jlt (.fin 0) (mkJs w) = true)
    (h1a : 0 < r1) (h1b : r1 ≤ 1) :
    EntryNNF ⟨mkJs w, jmul (mkJs w) (.fin r1), mkJs w⟩ ∧
    EntryOrd ⟨mkJs w, jmul (mkJs w) (.fin r1), mkJs w⟩ := by
  by_cases hov : OVER ≤ w
  · have hpos : mkJs w = .posInf := by rw [mkJs, if_pos hov]
    rw [hpos, jmul_posInf_fin h1a]
    exact ⟨⟨Or.inl rfl, Or.inl rfl, Or.inl rfl⟩, by simp [jle], by simp [jle]⟩
  · have hw2 : w < OVER := lt_of_not_le hov
    have hw0 : 0 < w := jlt_zero_mkJs_pos hov hw
    have hfin : mkJs w = .fin w := mkJs_of_bounds hw2 (by linarith [OVER_pos])
    have hfin1 : jmul (mkJs w) (.fin r1) = .fin (w * r1) := by
      rw [hfin, jmul_fin_fin]
      exact mkJs_of_bounds (by nlinarith) (by nlinarith [OVER_pos])
    rw [hfin1, hfin]
    exact ⟨⟨Or.inr ⟨w, rfl, le_of_lt hw0, hw2⟩,
        Or.inr ⟨w * r1, rfl, by positivity, by nlinarith⟩,
        Or.inr ⟨w, rfl, le_of_lt hw0, hw2⟩⟩,
      jle_fin_iff.2 (by nlinarith), jle_fin_iff.2 le_rfl⟩

theorem band_scaled_mk {w r1 r2 : ℚ} (hw : jlt (.fin 0) (mkJs w) = true)
    (h1a : 0 < r1) (h1b : r1 ≤ 1) (h2a : 1 ≤ r2) :
    EntryNNF ⟨mkJs w, jmul (mkJs w) (.fin r1), jmul (mkJs w) (.fin r2)⟩ ∧
    EntryOrd ⟨mkJs w, jmul (mkJs w) (.fin r1), jmul (mkJs w) (.fin r2)⟩ := by
  by_cases hov : OVER ≤ w
  · have hpos : mkJs w = .posInf := by rw [mkJs, if_pos hov]
    rw [hpos, jmul_posInf_fin h1a, jmul_posInf_fin (by linarith : (0:ℚ) < r2)]
    exact ⟨⟨Or.inl rfl, Or.inl rfl, Or.inl rfl⟩, by simp [jle], by simp [jle]⟩
  · have hw2 : w < OVER := lt_of_not_le hov
    have hw0 : 0 < w := jlt_zero_mkJs_pos hov hw
    have hfin : mkJs w = .fin w := mkJs_of_bounds hw2 (by linarith [OVER_pos])
    have hfin1 : jmul (mkJs w) (.fin r1) = .fin (w * r1) := by
      rw [hfin, jmul_fin_fin]
      exact mkJs_of_bounds (by nlinarith) (by nlinarith [OVER_pos])
    have hmk2 : jmul (mkJs w) (.fin r2) = mkJs (w * r2) := by rw [hfin, jmul_fin_fin]
    rw [hfin1, hmk2, hfin]
    refine ⟨⟨Or.inr ⟨w, rfl, le_of_lt hw0, hw2⟩,
        Or.inr ⟨w * r1, rfl, by positivity, by nlinarith⟩,
        mkJs_nonneg (by positivity)⟩, jle_fin_iff.2 (by nlinarith), ?_⟩
    rw [← mkJs_of_bounds hw2 (by linarith [OVER_pos] : -OVER < w)]
    exact jle_mkJs_mkJs (by nlinarith)

theorem jmin_posInf_fin (b : ℚ) : jmin .posInf (.fin b) = .fin b := by simp [jmin, jle]

theorem jmin_negInf_fin (b : ℚ) : jmin .negInf (.fin b) = .negInf := by simp [jmin, jle]

theorem jmul_negInf_fin {b : ℚ} (h : 0 < b) : jmul .negInf (.fin b) = .negInf := by
  simp only [jmul]; rw [if_neg (ne_of_gt h), if_pos h]

theorem np_mkJs {q : ℚ} (h : q ≤ 0) :
    mkJs q = .negInf ∨ ∃ w, mkJs q = .fin w ∧ w ≤ 0 := by
  by_cases h2 : q ≤ -OVER
  · exact Or.inl (by rw [mkJs, if_neg (by linarith [OVER_pos]), if_pos h2])
  · exact Or.inr ⟨q, mkJs_of_bounds (by linarith [OVER_pos]) (lt_of_not_le h2), h⟩

theorem np_jmul {x : JsNum} (hx : x = .negInf ∨ ∃ q, x = .fin q ∧ q ≤ 0) {r : ℚ}
    (hr : 0 < r) : jmul x (.fin r) = .negInf ∨ ∃ w, jmul x (.fin r) = .fin w ∧ w ≤ 0 := by
  rcases hx with rfl | ⟨q, rfl, hq⟩
  · exact Or.inl (jmul_negInf_fin hr)
  · rw [jmul_fin_fin]
    rcases np_mkJs (mul_nonpos_of_nonpos_of_nonneg hq (le_of_lt hr)) with h | ⟨w, hw, hw0⟩
    · exact Or.inl h
    · exact Or.inr ⟨w, hw, hw0⟩

theorem np_jadd {x y : JsNum} (hx : x = .negInf ∨ ∃ q, x = .fin q ∧ q ≤ 0)
    (hy : y = .negInf ∨ ∃ q, y = .fin q ∧ q ≤ 0) :
    jadd x y = .negInf ∨ ∃ w, jadd x y = .fin w ∧ w ≤ 0 := by
  rcases hx with rfl | ⟨q, rfl, hq⟩
  · rcases hy with rfl | ⟨w, rfl, hw⟩
    · exact Or.inl rfl
    · exact Or.inl rfl
  · rcases hy with rfl | ⟨w, rfl, hw⟩
    · exact Or.inl rfl
    · rw [jadd_fin_fin]
      rcases np_mkJs (by linarith : q + w ≤ 0) with h | ⟨v, hv, hv0⟩
      · exact Or.inl h
      · exact Or.inr ⟨v, hv, hv0⟩

theorem np_not_jlt {x : JsNum} (hx : x = .negInf ∨ ∃ q, x = .fin q ∧ q ≤ 0) :
    jlt (.fin 0) x = false := by
  rcases hx with rfl | ⟨q, rfl, hq⟩
  · rfl
  · simp [jlt]; linarith

theorem np_jmin120 {x : JsNum} (hx : x = .negInf ∨ ∃ q, x = .fin q ∧ q ≤ 0) :
    jmin x (.fin 120) = .negInf ∨ ∃ w, jmin x (.fin 120) = .fin w ∧ w ≤ 0 := by
  rcases hx with rfl | ⟨q, rfl, hq⟩
  · exact Or.inl (jmin_negInf_fin 120)
  · rw [jmin_fin_fin]
    exact Or.inr ⟨min q 120, rfl, le_trans (min_le_left ..) hq⟩

theorem clamp_band (v : SafeVal) {cap : ℚ} (h0 : 0 ≤ cap) (hc : cap ≤ 1000000000) :
    EntryNNF (exactEntry (clampJ v cap)) ∧ EntryOrd (exactEntry (clampJ v cap)) := by
  rw [clampJ_eq]
  exact band_exact_fin (le_min (le_max_right ..) h0)
    (lt_of_le_of_lt (min_le_right ..) (lt_of_le_of_lt hc OVER_big))

theorem dashpass_eq (s : SafeProfile) :
    dashpassValueJ s = mkJs (s.dashpassUsage.toNum * 9.99) := by
  rw [dashpassValueJ, orZero_toJs, jmul_fin_fin]

theorem dashpass_band (s : SafeProfile) (h : jlt (.fin 0) (dashpassValueJ s) = true) :
    EntryNNF (dashpassEntry s) ∧ EntryOrd (dashpassEntry s) := by
  rw [dashpass_eq] at h
  rw [dashpassEntry, dashpass_eq]
  exact band_half_mk h (by norm_num) (by norm_num)

theorem doorDash_le (s : SafeProfile) : totalDoorDashCreditsQ s ≤ 300 := by
  unfold totalDoorDashCreditsQ restaurantCreditsQ nonRestaurantCreditsQ
  split_ifs <;> norm_num

theorem doorDash_band (s : SafeProfile) (h : 0 < totalDoorDashCreditsQ s) :
    EntryNNF (doorDashEntry s) ∧ EntryOrd (doorDashEntry s) := by
  rw [doorDashEntry]
  exact band_half_fin h (le_trans (doorDash_le s) (by norm_num)) (by norm_num) (by norm_num)

theorem peloton_fin (s : SafeProfile) :
    ∃ p, pelotonValueJ s = .fin p ∧ 0 ≤ p ∧ p ≤ 1000 := by
  have hbase : ∃ b, pelotonBaseJ s = .fin b ∧ 0 ≤ b ∧ b ≤ 120 := by
    unfold pelotonBaseJ
    split_ifs
    · exact ⟨120, rfl, by norm_num, by norm_num⟩
    · exact ⟨0, rfl, by norm_num, by norm_num⟩
  obtain ⟨b, hb, hb0, hb1⟩ := hbase
  unfold pelotonValueJ
  split_ifs with he
  · have he0 : 0 < s.pelotonEquipment.toNum := by
      rw [SafeVal.toJs] at he; exact jlt_fin_iff.1 he
    have h1 : jmin s.pelotonEquipment.toJs (.fin 5000) =
        .fin (min s.pelotonEquipment.toNum 5000) := by
      rw [SafeVal.toJs, jmin_fin_fin]
    have hm0 : 0 < min s.pelotonEquipment.toNum 5000 := lt_min he0 (by norm_num)
    have hm1 : min s.pelotonEquipment.toNum 5000 ≤ 5000 := min_le_right ..
    have h2 : pelotonBonusJ s = .fin (min s.pelotonEquipment.toNum 5000 * 9) := by
      rw [pelotonBonusJ, h1, jmul_fin_fin]
      exact mkJs_of_bounds (by nlinarith [OVER_big]) (by nlinarith [OVER_pos])
    have h3 : jmul (pelotonBonusJ s) (.fin pvAvg) =
        .fin (min s.pelotonEquipment.toNum 5000 * 9 * pvAvg) := by
      rw [h2, jmul_fin_fin]
      refine mkJs_of_bounds ?_ ?_
      · rw [pvAvg]; nlinarith [OVER_big]
      · rw [pvAvg]; nlinarith [OVER_pos]
    rw [hb, h3, jadd_fin_fin]
    refine ⟨b + min s.pelotonEquipment.toNum 5000 * 9 * pvAvg, ?_, ?_, ?_⟩
    · refine mkJs_of_bounds ?_ ?_
      · rw [pvAvg]; nlinarith [OVER_big]
      · rw [pvAvg]; nlinarith [OVER_pos]
    · rw [pvAvg]; nlinarith
    · rw [pvAvg]; nlinarith
  · exact ⟨b, hb, hb0, le_trans hb1 (by norm_num)⟩

theorem peloton_band (s : SafeProfile) (h : jlt (.fin 0) (pelotonValueJ s) = true) :
    EntryNNF (pelotonEntry s) ∧ EntryOrd (pelotonEntry s) := by
  obtain ⟨p, hp, hp0, hpb⟩ := peloton_fin s
  rw [hp] at h
  rw [pelotonEntry, hp]
  exact band_scaled_fin (jlt_fin_iff.1 h) (le_trans hpb (by norm_num)) (by norm_num)
    (by norm_num) (by norm_num) (by norm_num)

theorem priorityPass_eq (s : SafeProfile) :
    priorityPassValueJ s = mkJs (s.priorityPassVisits.toNum * 35) := by
  rw [priorityPassValueJ, orZero_toJs, jmul_fin_fin]

theorem priorityPass_band (s : SafeProfile)
    (h : jlt (.fin 0) (priorityPassValueJ s) = true) :
    EntryNNF (priorityPassEntry s) ∧ EntryOrd (priorityPassEntry s) := by
  rw [priorityPass_eq] at h
  rw [priorityPassEntry, priorityPass_eq]
  exact band_scaled_mk h (by norm_num) (by norm_num) (by norm_num)

theorem globalEntry_le (s : SafeProfile) : globalEntryValueQ s ≤ 24 := by
  unfold globalEntryValueQ; split_ifs <;> norm_num

theorem globalEntry_nonneg (s : SafeProfile) : 0 ≤ globalEntryValueQ s := by
  unfold globalEntryValueQ; split_ifs <;> norm_num

theorem apple_le (s : SafeProfile) : appleServicesValueQ s ≤ 1000 := by
  unfold appleServicesValueQ; split_ifs <;> norm_num

theorem apple_band (s : SafeProfile) (h : 0 < appleServicesValueQ s) :
    EntryNNF (appleServicesEntry s) ∧ EntryOrd (appleServicesEntry s) := by
  rw [appleServicesEntry]
  exact band_half_fin h (le_trans (apple_le s) (by norm_num)) (by norm_num) (by norm_num)

theorem highSpender_le (s : SafeProfile) (qual : Bool) :
    highSpenderValueQ s qual ≤ 1100 := by
  unfold highSpenderValueQ; split_ifs <;> norm_num

theorem highSpender_band (s : SafeProfile) (qual : Bool)
    (h : 0 < highSpenderValueQ s qual) :
    EntryNNF (highSpenderEntry s qual) ∧ EntryOrd (highSpenderEntry s qual) := by
  rw [highSpenderEntry]
  exact band_scaled_fin h (le_trans (highSpender_le s qual) (by norm_num)) (by norm_num)
    (by norm_num) (by norm_num) (by norm_num)

theorem lyft_band (s : SafeProfile) (h : jlt (.fin 0) (lyftTotalJ s) = true) :
    EntryNNF (lyftEntry s) ∧ EntryOrd (lyftEntry s) := by
  have e_lc : lyftCreditsJ s = jmin (mkJs (s.lyftRides.toNum * 10)) (.fin 120) := by
    rw [lyftCreditsJ, orZero_toJs, jmul_fin_fin]
  have e_bp : lyftBonusPointsJ s = jmul (mkJs (s.lyftRides.toNum * 20)) (.fin 4) := by
    rw [lyftBonusPointsJ, orZero_toJs, jmul_fin_fin]
  rw [lyftTotalJ] at h
  by_cases hu : 0 < s.lyftRides.toNum
  case neg =>
    exfalso
    have h10 : s.lyftRides.toNum * 10 ≤ 0 := by nlinarith [not_lt.1 hu]
    have h20 : s.lyftRides.toNum * 20 ≤ 0 := by nlinarith [not_lt.1 hu]
    have hlc := np_jmin120 (np_mkJs h10)
    rw [← e_lc] at hlc
    have hbp := np_jmul (np_mkJs h20) (by norm_num : (0:ℚ) < 4)
    rw [← e_bp] at hbp
    have hbp2 := np_jmul hbp (by norm_num [pvAvg] : (0:ℚ) < pvAvg)
    have hT := np_jadd hlc hbp2
    rw [np_not_jlt hT] at h
    exact absurd h (by simp)
  case pos =>
    have hlc : ∃ c, lyftCreditsJ s = .fin c ∧ 0 < c ∧ c ≤ 120 := by
      rw [e_lc]
      by_cases hov : OVER ≤ s.lyftRides.toNum * 10
      · rw [mkJs, if_pos hov, jmin_posInf_fin]
        exact ⟨120, rfl, by norm_num, le_rfl⟩
      · rw [mkJs_of_bounds (lt_of_not_le hov) (by nlinarith [OVER_pos]), jmin_fin_fin]
        exact ⟨min (s.lyftRides.toNum * 10) 120, rfl, lt_min (by nlinarith) (by norm_num),
          min_le_right ..⟩
    have hbp : lyftBonusPointsJ s = .posInf ∨
        ∃ b, lyftBonusPointsJ s = .fin b ∧ 0 < b ∧ b < OVER := by
      rw [e_bp]
      by_cases hov : OVER ≤ s.lyftRides.toNum * 20
      · rw [mkJs, if_pos hov, jmul_posInf_fin (by norm_num : (0:ℚ) < 4)]
        exact Or.inl rfl
      · rw [mkJs_of_bounds (lt_of_not_le hov) (by nlinarith [OVER_pos]), jmul_fin_fin]
        by_cases hov2 : OVER ≤ s.lyftRides.toNum * 20 * 4
        · rw [mkJs, if_pos hov2]; exact Or.inl rfl
        · rw [mkJs_of_bounds (lt_of_not_le hov2) (by nlinarith [OVER_pos])]
          exact Or.inr ⟨s.lyftRides.toNum * 20 * 4, rfl, by nlinarith, lt_of_not_le hov2⟩
    obtain ⟨c, hc, hc0, hc120⟩ := hlc
    rw [lyftEntry, lyftTotalJ, hc]
    rcases hbp with hbpI | ⟨b, hb, hb0, hbO⟩
    · rw [hbpI, jmul_posInf_fin (by norm_num [pvMin] : (0:ℚ) < pvMin),
        jmul_posInf_fin (by norm_num [pvAvg] : (0:ℚ) < pvAvg),
        jmul_posInf_fin (by norm_num [pvMax] : (0:ℚ) < pvMax),
        jadd_fin_posInf]
      exact ⟨⟨Or.inl rfl, Or.inl rfl, Or.inl rfl⟩, by simp [jle], by simp [jle]⟩
    · rw [hb, jmul_fin_fin, jmul_fin_fin, jmul_fin_fin]
      have hr : ∀ r : ℚ, 0 < r → r ≤ 1/50 →
          jadd (.fin c) (mkJs (b * r)) = .fin (c + b * r) ∧
          0 < c + b * r ∧ c + b * r < OVER := by
        intro r hr0 hr1
        have hbr : b * r ≤ b * (1/50) :=
          mul_le_mul_of_nonneg_left hr1 (le_of_lt hb0)
        have hbound : c + b * r < OVER := by nlinarith [OVER_big]
        have hfinr : mkJs (b * r) = .fin (b * r) :=
          mkJs_of_bounds (by nlinarith) (by nlinarith [OVER_pos])
        rw [hfinr, jadd_fin_fin]
        exact ⟨mkJs_of_bounds hbound (by nlinarith [OVER_pos]), by nlinarith, hbound⟩
      have hmin := hr pvMin (by norm_num [pvMin]) (by norm_num [pvMin])
      have havg := hr pvAvg (by norm_num [pvAvg]) (by norm_num [pvAvg])
      have hmax := hr pvMax (by norm_num [pvMax]) (by norm_num [pvMax])
      rw [hmin.1, havg.1, hmax.1]
      refine ⟨⟨Or.inr ⟨_, rfl, le_of_lt havg.2.1, havg.2.2⟩,
        Or.inr ⟨_, rfl, le_of_lt hmin.2.1, hmin.2.2⟩,
        Or.inr ⟨_, rfl, le_of_lt hmax.2.1, hmax.2.2⟩⟩, ?_, ?_⟩
      · refine jle_fin_iff.2 ?_
        have : b * pvMin ≤ b * pvAvg := by
          refine mul_le_mul_of_nonneg_left ?_ (le_of_lt hb0)
          norm_num [pvMin, pvAvg]
        linarith
      · refine jle_fin_iff.2 ?_
        have : b * pvAvg ≤ b * pvMax := by
          refine mul_le_mul_of_nonneg_left ?_ (le_of_lt hb0)
          norm_num [pvAvg, pvMax]
        linarith

theorem mem_optEntry {kv : String × Entry} {c : Bool} {k : String} {e : Entry}
    (h : kv ∈ optEntry c k e) : c = true ∧ kv = (k, e) := by
  cases c
  · simp [optEntry] at h
  · simp only [optEntry, if_pos, List.mem_singleton] at h
    exact ⟨rfl, h⟩

theorem lookup_cons_self {k : String} {e : Entry} {l : List (String × Entry)} :
    List.lookup k ((k, e) :: l) = some e := by simp [List.lookup]

theorem lookup_cons_ne {k k1 : String} {e : Entry} {l : List (String × Entry)}
    (h : k ≠ k1) : List.lookup k ((k1, e) :: l) = List.lookup k l := by
  simp [List.lookup, beq_eq_false_iff_ne.2 h]

theorem lookup_append_ne {k : String} {l1 l2 : List (String × Entry)}
    (h : ∀ kv ∈ l1, kv.1 ≠ k) : List.lookup k (l1 ++ l2) = List.lookup k l2 := by
  induction l1 with
  | nil => simp
  | cons kv t ih =>
      rcases kv with ⟨k1, e⟩
      rw [List.cons_append, lookup_cons_ne (Ne.symm (h (k1, e) (List.mem_cons_self ..)))]
      exact ih (fun x hx => h x (List.mem_cons_of_mem _ hx))

theorem lookup_optEntry_ne {k k1 : String} {c : Bool} {e : Entry}
    {l2 : List (String × Entry)} (h : k1 ≠ k) :
    List.lookup k (optEntry c k1 e ++ l2) = List.lookup k l2 := by
  refine lookup_append_ne (fun kv hkv => ?_)
  obtain ⟨-, rfl⟩ := mem_optEntry hkv
  exact h

theorem lookup_optEntry_self (k : String) (c : Bool) (e : Entry) :
    List.lookup k (optEntry c k e) = if c then some e else none := by
  cases c <;> simp [optEntry, List.lookup]

theorem mem_breakdownRest {s : SafeProfile} {qual : Bool} {kv : String × Entry}
    (h : kv ∈ breakdownRest s qual) : EntryNNF kv.2 ∧ EntryOrd kv.2 := by
  rw [breakdownRest] at h
  rcases List.mem_cons.1 h with rfl | h
  · rw [travelCreditJ]; exact clamp_band s.travelCreditUsage (by norm_num) (by norm_num)
  rcases List.mem_cons.1 h with rfl | h
  · rw [diningCreditJ]; exact clamp_band s.diningCredit (by norm_num) (by norm_num)
  rcases List.mem_append.1 h with h | h
  · obtain ⟨-, rfl⟩ := mem_optEntry h
    rw [editCreditJ]; exact clamp_band s.editStaysValue (by norm_num) (by norm_num)
  rcases List.mem_append.1 h with h | h
  · obtain ⟨-, rfl⟩ := mem_optEntry h
    rw [stubhubCreditJ]; exact clamp_band s.stubhubSpending (by norm_num) (by norm_num)
  rcases List.mem_append.1 h with h | h
  · obtain ⟨hg, rfl⟩ := mem_optEntry h
    exact dashpass_band s hg
  rcases List.mem_append.1 h with h | h
  · obtain ⟨hg, rfl⟩ := mem_optEntry h
    exact doorDash_band s (of_decide_eq_true hg)
  rcases List.mem_append.1 h with h | h
  · obtain ⟨hg, rfl⟩ := mem_optEntry h
    exact lyft_band s hg
  rcases List.mem_append.1 h with h | h
  · obtain ⟨hg, rfl⟩ := mem_optEntry h
    exact peloton_band s hg
  rcases List.mem_append.1 h with h | h
  · obtain ⟨hg, rfl⟩ := mem_optEntry h
    exact priorityPass_band s hg
  rcases List.mem_append.1 h with h | h
  · obtain ⟨hg, rfl⟩ := mem_optEntry h
    exact band_exact_fin (globalEntry_nonneg s)
      (lt_of_le_of_lt (globalEntry_le s) (by linarith [OVER_big]))
  rcases List.mem_append.1 h with h | h
  · obtain ⟨hg, rfl⟩ := mem_optEntry h
    exact apple_band s (of_decide_eq_true hg)
  · obtain ⟨hg, rfl⟩ := mem_optEntry h
    exact highSpender_band s qual (of_decide_eq_true hg)

theorem scale_bounds {t r : ℚ} (h1 : t < OVER) (h2 : -OVER < t) (hr0 : 0 < r)
    (hr1 : r ≤ 1) : t * r < OVER ∧ -OVER < t * r := by
  constructor
  · nlinarith [mul_lt_mul_of_pos_right h1 hr0, OVER_pos]
  · nlinarith [mul_lt_mul_of_pos_right h2 hr0, OVER_pos]

theorem mkJs_scale {t r : ℚ} (h1 : t < OVER) (h2 : -OVER < t) (hr0 : 0 < r)
    (hr1 : r ≤ 1) : mkJs (t * r) = .fin (t * r) :=
  mkJs_of_bounds (scale_bounds h1 h2 hr0 hr1).1 (scale_bounds h1 h2 hr0 hr1).2

theorem points_band {t : ℚ} (h1 : t < OVER) (h2 : -OVER < t) (h0 : 0 ≤ t) :
    EntryNNF (pointsEntry (.fin t)) ∧ EntryOrd (pointsEntry (.fin t)) := by
  rw [pointsEntry, jmul_fin_fin, jmul_fin_fin, jmul_fin_fin,
    mkJs_scale h1 h2 (by norm_num [pvAvg]) (by norm_num [pvAvg]),
    mkJs_scale h1 h2 (by norm_num [pvMin]) (by norm_num [pvMin]),
    mkJs_scale h1 h2 (by norm_num [pvMax]) (by norm_num [pvMax])]
  refine ⟨⟨Or.inr ⟨_, rfl, mul_nonneg h0 (by norm_num [pvAvg]),
      (scale_bounds h1 h2 (by norm_num [pvAvg]) (by norm_num [pvAvg])).1⟩,
    Or.inr ⟨_, rfl, mul_nonneg h0 (by norm_num [pvMin]),
      (scale_bounds h1 h2 (by norm_num [pvMin]) (by norm_num [pvMin])).1⟩,
    Or.inr ⟨_, rfl, mul_nonneg h0 (by norm_num [pvMax]),
      (scale_bounds h1 h2 (by norm_num [pvMax]) (by norm_num [pvMax])).1⟩⟩, ?_, ?_⟩
  · exact jle_fin_iff.2 (mul_le_mul_of_nonneg_left (by norm_num [pvMin, pvAvg]) h0)
  · exact jle_fin_iff.2 (mul_le_mul_of_nonneg_left (by norm_num [pvAvg, pvMax]) h0)

theorem pointsEntry_not_nan {t : ℚ} (h1 : t < OVER) (h2 : -OVER < t) :
    pointsEntry (.fin t) = ⟨.fin (t * pvAvg), .fin (t * pvMin), .fin (t * pvMax)⟩ := by
  rw [pointsEntry, jmul_fin_fin, jmul_fin_fin, jmul_fin_fin,
    mkJs_scale h1 h2 (by norm_num [pvAvg]) (by norm_num [pvAvg]),
    mkJs_scale h1 h2 (by norm_num [pvMin]) (by norm_num [pvMin]),
    mkJs_scale h1 h2 (by norm_num [pvMax]) (by norm_num [pvMax])]

theorem totalPoints_fin {s : SafeProfile} {t : ℚ} (h : totalPointsJ s = .fin t) :
    t = s.chaseTravel.toNum * 8 + s.flightsHotels.toNum * 4 + s.dining.toNum * 3 +
      s.otherSpending.toNum * 1 ∧ t < OVER ∧ -OVER < t := by
  rw [totalPointsJ] at h
  obtain ⟨a3, m4, ha3, hm4, ht, htO, htO2⟩ := jadd_eq_fin h
  obtain ⟨a2, m3, ha2, hm3, ha3e, -, -⟩ := jadd_eq_fin ha3
  obtain ⟨m1, m2, hm1, hm2, ha2e, -, -⟩ := jadd_eq_fin ha2
  rw [SafeVal.toJs, jmul_fin_fin] at hm1 hm2 hm3 hm4
  obtain ⟨e1, -, -⟩ := mkJs_eq_fin hm1
  obtain ⟨e2, -, -⟩ := mkJs_eq_fin hm2
  obtain ⟨e3, -, -⟩ := mkJs_eq_fin hm3
  obtain ⟨e4, -, -⟩ := mkJs_eq_fin hm4
  refine ⟨?_, htO, htO2⟩
  rw [ht, ha3e, ha2e, e1, e2, e3, e4]

theorem finish_id (r : ResultSet) : finishResults r = r := by
  simp [finishResults, isValidResults]

theorem compute_eq_normal {p : RawProfile} {t : ℚ}
    (h : totalPointsJ (validateInputs p) = .fin t) :
    compute (some p) = assembleResults (buildBreakdown (validateInputs p)
      (qualifiesForHighSpender p) (.fin t)) := by
  simp only [compute, calculateROI, h, JsNum.isNan, JsNum.isFinite, Bool.not_true,
    Bool.or_false, Bool.false_or]
  rw [if_neg (by simp), finish_id]

theorem compute_fallback {p : RawProfile}
    (h : ((totalPointsJ (validateInputs p)).isNan ||
      !(totalPointsJ (validateInputs p)).isFinite) = true) :
    compute (some p) = fallbackResults := by
  simp only [compute, calculateROI, h]
  simp

theorem compute_cases (p : RawProfile) :
    compute (some p) = fallbackResults ∨
    ∃ t, totalPointsJ (validateInputs p) = .fin t ∧
      compute (some p) = assembleResults (buildBreakdown (validateInputs p)
        (qualifiesForHighSpender p) (.fin t)) := by
  cases htp : totalPointsJ (validateInputs p) with
  | fin t => exact Or.inr ⟨t, rfl, compute_eq_normal htp⟩
  | posInf => exact Or.inl (compute_fallback (by rw [htp]; rfl))
  | negInf => exact Or.inl (compute_fallback (by rw [htp]; rfl))
  | nan => exact Or.inl (compute_fallback (by rw [htp]; rfl))

theorem isNan_iff {x : JsNum} : x.isNan = true ↔ x = .nan := by cases x <;> simp

theorem jRange_not_isNan {c : ℚ} {x : JsNum} (h : jRange c x) : x.isNan = false := by
  rcases h with rfl | ⟨q, rfl, -, -⟩ <;> rfl

theorem breakdown_ne_nan {s : SafeProfile} {qual : Bool} {t : ℚ}
    (ht1 : t < OVER) (ht2 : -OVER < t) :
    ∀ kv ∈ buildBreakdown s qual (.fin t),
      Entry.value kv.2 ≠ .nan ∧ Entry.min kv.2 ≠ .nan ∧ Entry.max kv.2 ≠ .nan := by
  intro kv hkv
  rcases List.mem_cons.1 hkv with rfl | h
  · rw [pointsEntry_not_nan ht1 ht2]
    refine ⟨?_, ?_, ?_⟩ <;> simp [Entry.value, Entry.min, Entry.max]
  · obtain ⟨hnnf, -⟩ := mem_breakdownRest h
    exact ⟨nnf_ne_nan hnnf.1, nnf_ne_nan hnnf.2.1, nnf_ne_nan hnnf.2.2⟩

theorem breakdown_nnf_ord {s : SafeProfile} {qual : Bool} {t : ℚ}
    (ht1 : t < OVER) (ht2 : -OVER < t) (h0 : 0 ≤ t) :
    ∀ kv ∈ buildBreakdown s qual (.fin t), EntryNNF kv.2 ∧ EntryOrd kv.2 := by
  intro kv hkv
  rcases List.mem_cons.1 hkv with rfl | h
  · exact points_band ht1 ht2 h0
  · exact mem_breakdownRest h

theorem breakdown_fold_jRange {s : SafeProfile} {qual : Bool} {t : ℚ}
    (f : Entry → JsNum) {p0 : ℚ}
    (hp : f (pointsEntry (.fin t)) = .fin p0) (hp1 : p0 < OVER) (hp2 : -OVER < p0)
    (hrest : ∀ kv ∈ breakdownRest s qual, NNF (f kv.2)) :
    jRange (min p0 0) ((buildBreakdown s qual (.fin t)).foldl
      (fun a kv => jadd a (f kv.2)) (.fin 0)) := by
  rw [buildBreakdown, List.foldl_cons, hp, jadd_fin_fin, zero_add, mkJs_of_bounds hp1 hp2]
  exact foldl_plain_jRange f (lt_min hp2 (neg_lt_zero.mpr OVER_pos)) _ _
    (Or.inr ⟨p0, rfl, min_le_left .., hp1⟩) hrest

theorem sum_value_jRange {s : SafeProfile} {qual : Bool} {t : ℚ}
    (ht1 : t < OVER) (ht2 : -OVER < t) :
    jRange (min (t * pvAvg) 0) (sumValues (buildBreakdown s qual (.fin t))) := by
  rw [sumValues]
  refine breakdown_fold_jRange Entry.value
    (by rw [pointsEntry_not_nan ht1 ht2])
    (scale_bounds ht1 ht2 (by norm_num [pvAvg]) (by norm_num [pvAvg])).1
    (scale_bounds ht1 ht2 (by norm_num [pvAvg]) (by norm_num [pvAvg])).2
    (fun kv h => (mem_breakdownRest h).1.1)

theorem sum_min_jRange {s : SafeProfile} {qual : Bool} {t : ℚ}
    (ht1 : t < OVER) (ht2 : -OVER < t) :
    jRange (min (t * pvMin) 0) (sumMins (buildBreakdown s qual (.fin t))) := by
  rw [sumMins]
  refine breakdown_fold_jRange Entry.min
    (by rw [pointsEntry_not_nan ht1 ht2])
    (scale_bounds ht1 ht2 (by norm_num [pvMin]) (by norm_num [pvMin])).1
    (scale_bounds ht1 ht2 (by norm_num [pvMin]) (by norm_num [pvMin])).2
    (fun kv h => (mem_breakdownRest h).1.2.1)

theorem sum_max_jRange {s : SafeProfile} {qual : Bool} {t : ℚ}
    (ht1 : t < OVER) (ht2 : -OVER < t) :
    jRange (min (t * pvMax) 0) (sumMaxs (buildBreakdown s qual (.fin t))) := by
  rw [sumMaxs]
  refine breakdown_fold_jRange Entry.max
    (by rw [pointsEntry_not_nan ht1 ht2])
    (scale_bounds ht1 ht2 (by norm_num [pvMax]) (by norm_num [pvMax])).1
    (scale_bounds ht1 ht2 (by norm_num [pvMax]) (by norm_num [pvMax])).2
    (fun kv h => (mem_breakdownRest h).1.2.2)

theorem reduce_value_eq {s : SafeProfile} {qual : Bool} {t : ℚ}
    (ht1 : t < OVER) (ht2 : -OVER < t) :
    reduceAgg Entry.value (buildBreakdown s qual (.fin t)) =
      sumValues (buildBreakdown s qual (.fin t)) := by
  rw [sumValues]
  exact reduceAgg_eq_plain _ _ (fun kv h => (breakdown_ne_nan ht1 ht2 kv h).1)

theorem reduce_min_eq {s : SafeProfile} {qual : Bool} {t : ℚ}
    (ht1 : t < OVER) (ht2 : -OVER < t) :
    reduceAgg Entry.min (buildBreakdown s qual (.fin t)) =
      sumMins (buildBreakdown s qual (.fin t)) := by
  rw [sumMins]
  exact reduceAgg_eq_plain _ _ (fun kv h => (breakdown_ne_nan ht1 ht2 kv h).2.1)

theorem reduce_max_eq {s : SafeProfile} {qual : Bool} {t : ℚ}
    (ht1 : t < OVER) (ht2 : -OVER < t) :
    reduceAgg Entry.max (buildBreakdown s qual (.fin t)) =
      sumMaxs (buildBreakdown s qual (.fin t)) := by
  rw [sumMaxs]
  exact reduceAgg_eq_plain _ _ (fun kv h => (breakdown_ne_nan ht1 ht2 kv h).2.2)

theorem assemble_breakdown (b : List (String × Entry)) :
    (assembleResults b).breakdown = b := rfl

theorem assemble_totalValue {s : SafeProfile} {qual : Bool} {t : ℚ}
    (ht1 : t < OVER) (ht2 : -OVER < t) :
    (assembleResults (buildBreakdown s qual (.fin t))).totalValue =
      sumValues (buildBreakdown s qual (.fin t)) := by
  have hnn : (reduceAgg Entry.value (buildBreakdown s qual (.fin t))).isNan = false := by
    rw [reduce_value_eq ht1 ht2]
    exact jRange_not_isNan (sum_value_jRange ht1 ht2)
  simp only [assembleResults]
  rw [hnn]
  simp only [Bool.false_eq_true, if_false]
  exact reduce_value_eq ht1 ht2

theorem assemble_roi {s : SafeProfile} {qual : Bool} {t : ℚ}
    (ht1 : t < OVER) (ht2 : -OVER < t) :
    (assembleResults (buildBreakdown s qual (.fin t))).roi =
      roiValue (sumValues (buildBreakdown s qual (.fin t))) := by
  simp only [assembleResults]
  rw [if_neg (fun hc => roiValue_ne_nan _ (isNan_iff.1 hc)), reduce_value_eq ht1 ht2]

theorem assemble_minROI {s : SafeProfile} {qual : Bool} {t : ℚ}
    (ht1 : t < OVER) (ht2 : -OVER < t) :
    (assembleResults (buildBreakdown s qual (.fin t))).minROI =
      roiValue (sumMins (buildBreakdown s qual (.fin t))) := by
  simp only [assembleResults]
  rw [if_neg (fun hc => roiValue_ne_nan _ (isNan_iff.1 hc)), reduce_min_eq ht1 ht2]

theorem assemble_maxROI {s : SafeProfile} {qual : Bool} {t : ℚ}
    (ht1 : t < OVER) (ht2 : -OVER < t) :
    (assembleResults (buildBreakdown s qual (.fin t))).maxROI =
      roiValue (sumMaxs (buildBreakdown s qual (.fin t))) := by
  simp only [assembleResults]
  rw [if_neg (fun hc => roiValue_ne_nan _ (isNan_iff.1 hc)), reduce_max_eq ht1 ht2]

theorem roiValue_eq_spec (v : JsNum) : roiValue v = specROIFormula v := rfl

/-! ### Claims -/

/-- Claim C4: compute never raises and always returns a full `ResultSet`; in
the embedding `compute` is a total function into the six-field `ResultSet`
record, and on an input that is not an object (modelled by `none`) it returns
exactly the zero-value fallback
`{totalValue: 0, totalCost: 795, roi: -100, minROI: -100, maxROI: -100, breakdown: {}}`. -/
theorem c4_non_object_fallback :
    compute none = ⟨.fin 0, 795, .fin (-100), .fin (-100), .fin (-100), []⟩ := rfl

/-- Claim C5: for every input the returned `totalValue` is exactly the sum of
the `value` fields over the breakdown entries, and the min/max aggregates
feeding `minROI`/`maxROI` are the corresponding sums of the `min`/`max`
fields. -/
theorem c5_aggregates_are_sums (inp : Option RawProfile) :
    (compute inp).totalValue = sumValues ((compute inp).breakdown) ∧
    (compute inp).minROI = specROIFormula (sumMins ((compute inp).breakdown)) ∧
    (compute inp).maxROI = specROIFormula (sumMaxs ((compute inp).breakdown)) := by
  have hfb : fallbackResults.totalValue = sumValues fallbackResults.breakdown ∧
      fallbackResults.minROI = specROIFormula (sumMins fallbackResults.breakdown) ∧
      fallbackResults.maxROI = specROIFormula (sumMaxs fallbackResults.breakdown) := by
    refine ⟨?_, ?_, ?_⟩ <;> norm_num
  cases inp with
  | none => exact hfb
  | some p =>
      rcases compute_cases p with hc | ⟨t, htp, hc⟩
      · rw [hc]; exact hfb
      · obtain ⟨-, ht1, ht2⟩ := totalPoints_fin htp
        rw [hc, assemble_breakdown]
        exact ⟨assemble_totalValue ht1 ht2, assemble_minROI ht1 ht2,
          assemble_maxROI ht1 ht2⟩

/-- Claim C6: the reported `roi` always equals the spec formula
`v > 0 ? (v - 795) / 795 * 100 : -100` applied to the reported `totalValue`
(the round-trip matches exactly), and `minROI`/`maxROI` satisfy the same
formula pattern applied to the summed `min`/`max` values. -/
theorem c6_roi_round_trip (inp : Option RawProfile) :
    (compute inp).roi = specROIFormula ((compute inp).totalValue) ∧
    (compute inp).minROI = specROIFormula (sumMins ((compute inp).breakdown)) ∧
    (compute inp).maxROI = specROIFormula (sumMaxs ((compute inp).breakdown)) := by
  have hfb : fallbackResults.roi = specROIFormula fallbackResults.totalValue ∧
      fallbackResults.minROI = specROIFormula (sumMins fallbackResults.breakdown) ∧
      fallbackResults.maxROI = specROIFormula (sumMaxs fallbackResults.breakdown) := by
    refine ⟨?_, ?_, ?_⟩ <;> norm_num
  cases inp with
  | none => exact hfb
  | some p =>
      rcases compute_cases p with hc | ⟨t, htp, hc⟩
      · rw [hc]; exact hfb
      · obtain ⟨-, ht1, ht2⟩ := totalPoints_fin htp
        rw [hc, assemble_breakdown]
        refine ⟨?_, assemble_minROI ht1 ht2, assemble_maxROI ht1 ht2⟩
        rw [assemble_roi ht1 ht2, assemble_totalValue ht1 ht2, roiValue_eq_spec]

/-- Claim C1 counterexample: on the default input profile the breakdown is NOT
the claimed three-key map with `totalValue = 600`: the default
`dashpassUsage = 12` produces a fourth `dashpass` entry, so `totalValue`
differs from `600`. -/
theorem c1_counterexample :
    (compute (some defaultInputs)).totalValue ≠ .fin 600 ∧
    (compute (some defaultInputs)).breakdown.lookup "dashpass" ≠ none := by
  constructor <;> norm_num

set_option maxHeartbeats 2000000 in
/-- Claim C1 amended: on the default profile the breakdown contains exactly
the four keys `points` (value 0), `travelCredit` (300), `diningCredit` (300)
and `dashpass` (12 · 9.99 = 119.88, band [59.94, 119.88]); `totalValue`
is 719.88 and `roi = (719.88 - 795) / 795 * 100` (minROI uses the summed
mins 659.94). -/
theorem c1_default_profile :
    (compute (some defaultInputs)).breakdown.map Prod.fst =
      ["points", "travelCredit", "diningCredit", "dashpass"] ∧
    (compute (some defaultInputs)).breakdown.lookup "points" =
      some ⟨.fin 0, .fin 0, .fin 0⟩ ∧
    (compute (some defaultInputs)).breakdown.lookup "travelCredit" =
      some ⟨.fin 300, .fin 300, .fin 300⟩ ∧
    (compute (some defaultInputs)).breakdown.lookup "diningCredit" =
      some ⟨.fin 300, .fin 300, .fin 300⟩ ∧
    (compute (some defaultInputs)).breakdown.lookup "dashpass" =
      some ⟨.fin (11988/100), .fin (5994/100), .fin (11988/100)⟩ ∧
    (compute (some defaultInputs)).totalValue = .fin (71988/100) ∧
    (compute (some defaultInputs)).totalCost = 795 ∧
    (compute (some defaultInputs)).roi = .fin ((71988/100 - 795) / 795 * 100) ∧
    (compute (some defaultInputs)).minROI = .fin ((65994/100 - 795) / 795 * 100) ∧
    (compute (some defaultInputs)).maxROI = .fin ((71988/100 - 795) / 795 * 100) := by
  refine ⟨?_, ?_, ?_, ?_, ?_, ?_, ?_, ?_, ?_, ?_⟩ <;> (norm_num [List.lookup]; try simp)

/-- Claim C2 counterexample: with `lyftRides = 1e308` the lyft bonus-point
arithmetic overflows to `Infinity`; the non-finite intermediate does NOT
collapse the result to the fallback — instead `totalValue` and `roi` are
returned as `Infinity`, so not every numeric output is finite. -/
theorem c2_counterexample :
    lyftTotalJ (validateInputs pLyftBig) = .posInf ∧
    (compute (some pLyftBig)).totalValue = .posInf ∧
    (compute (some pLyftBig)).roi = .posInf ∧
    compute (some pLyftBig) ≠ fallbackResults := by
  refine ⟨?_, ?_, ?_, ?_⟩ <;> (norm_num; try simp)

/-- Claim C2 amended: only the points subtotal is finiteness-guarded — when
`totalPoints` is `NaN` or non-finite, `compute` returns the zero-value
fallback.  Non-finite values arising in the other categories propagate into
the returned result (see the counterexample). -/
theorem c2_points_guard (p : RawProfile)
    (h : ((totalPointsJ (validateInputs p)).isNan ||
      !(totalPointsJ (validateInputs p)).isFinite) = true) :
    compute (some p) = fallbackResults :=
  compute_fallback h

/-- Witness for the points guard: `chaseTravel = 1e308` makes the points
subtotal overflow and the fallback is returned. -/
theorem c2_points_guard_witness :
    ((totalPointsJ (validateInputs pChaseBig)).isNan ||
      !(totalPointsJ (validateInputs pChaseBig)).isFinite) = true ∧
    compute (some pChaseBig) = fallbackResults :=
  ⟨by norm_num, c2_points_guard pChaseBig (by norm_num)⟩

theorem lookup_points_eq {p : RawProfile} {e : Entry}
    (h : (compute (some p)).breakdown.lookup "points" = some e) :
    ∃ t, totalPointsJ (validateInputs p) = .fin t ∧ e = pointsEntry (.fin t) := by
  rcases compute_cases p with hc | ⟨t, htp, hc⟩
  · rw [hc] at h
    simp [fallbackResults, List.lookup] at h
  · rw [hc, assemble_breakdown, buildBreakdown, lookup_cons_self] at h
    exact ⟨t, htp, (Option.some.inj h).symm⟩

/-- Claim C3 counterexample: qualification is computed from the RAW inputs,
not the sanitized ones.  With raw `chaseTravel = Infinity` the raw sum is
`Infinity ≥ 75000`, so the `highSpender` entry is contributed even though the
Step-1-sanitized spending sum is `0 < 75000`. -/
theorem c3_counterexample :
    (compute (some pSpendInf)).breakdown.lookup "highSpender" =
      some ⟨.fin 250, .fin 200, .fin 300⟩ ∧
    sanitizedSpendingSum pSpendInf < 75000 := by
  constructor
  · norm_num [List.lookup]; try simp
  · norm_num

set_option maxHeartbeats 2000000 in
/-- Claim C3 amended: the `highSpender` category is contributed only when the
RAW spending sum (`totalAnnualSpending`, with `NaN` collapsed to `0`)
satisfies `≥ 75000`; for finite numeric spending fields this coincides with
the sanitized sum.  Concretely: total spend `74999` with all four toggles on
has no `highSpender` key, and `75000` with only `useShopsCredit` yields value
`250` with band `[200, 300]`. -/
theorem c3_highspender_gating :
    (∀ p : RawProfile, (compute (some p)).breakdown.lookup "highSpender" ≠ none →
      jle (.fin 75000) (totalAnnualSpendingJ p) = true) ∧
    (compute (some p74999)).breakdown.lookup "highSpender" = none ∧
    (compute (some p75000)).breakdown.lookup "highSpender" =
      some ⟨.fin 250, .fin 200, .fin 300⟩ := by
  refine ⟨?_, by norm_num [List.lookup]; try simp, by norm_num [List.lookup]; try simp⟩
  intro p h
  rcases compute_cases p with hc | ⟨t, htp, hc⟩
  · rw [hc] at h
    simp [fallbackResults, List.lookup] at h
  · rw [hc, assemble_breakdown, buildBreakdown, breakdownRest] at h
    rw [lookup_cons_ne (by decide), lookup_cons_ne (by decide), lookup_cons_ne (by decide),
      lookup_optEntry_ne (by decide), lookup_optEntry_ne (by decide),
      lookup_optEntry_ne (by decide), lookup_optEntry_ne (by decide),
      lookup_optEntry_ne (by decide), lookup_optEntry_ne (by decide),
      lookup_optEntry_ne (by decide), lookup_optEntry_ne (by decide),
      lookup_optEntry_ne (by decide), lookup_optEntry_self] at h
    by_cases hq : qualifiesForHighSpender p = true
    · exact hq
    · exfalso
      have hqf : qualifiesForHighSpender p = false := by
        cases hqb : qualifiesForHighSpender p
        · rfl
        · exact absurd hqb hq
      rw [hqf] at h
      simp [highSpenderValueQ] at h

/-- Witness for the gating direction of C3: at total spend `75000` the
`highSpender` key is present and the raw qualification holds. -/
theorem c3_highspender_gating_witness :
    (compute (some p75000)).breakdown.lookup "highSpender" ≠ none ∧
    jle (.fin 75000) (totalAnnualSpendingJ p75000) = true :=
  ⟨by norm_num [List.lookup]; try simp,
   c3_highspender_gating.1 p75000 (by norm_num [List.lookup]; try simp)⟩

/-- Claim C7: increasing a single spending field (holding every other field
fixed) never decreases the `points` entry value, whenever both computations
produce a `points` entry. -/
theorem c7_points_monotone (fld : SpendField) (p : RawProfile) (a b : ℚ) (hab : a < b)
    (e1 e2 : Entry)
    (h1 : (compute (some (setSpend fld p (.num (.fin a))))).breakdown.lookup "points" =
      some e1)
    (h2 : (compute (some (setSpend fld p (.num (.fin b))))).breakdown.lookup "points" =
      some e2) :
    jle e1.value e2.value = true := by
  obtain ⟨t1, ht1, rfl⟩ := lookup_points_eq h1
  obtain ⟨t2, ht2, rfl⟩ := lookup_points_eq h2
  obtain ⟨he1, hb1, hb1n⟩ := totalPoints_fin ht1
  obtain ⟨he2, hb2, hb2n⟩ := totalPoints_fin ht2
  have ht12 : t1 ≤ t2 := by
    cases fld <;>
      (simp only [setSpend, validateInputs, sanitizeVal, SafeVal.toNum] at he1 he2 <;>
        linarith)
  rw [pointsEntry_not_nan hb1 hb1n, pointsEntry_not_nan hb2 hb2n]
  exact jle_fin_iff.2 (mul_le_mul_of_nonneg_right ht12 (by norm_num [pvAvg]))

/-- Witness for C7: raising `otherSpending` from `0` to `100` on the all-zero
profile raises `points.value` from `0` to `1.75`. -/
theorem c7_points_monotone_witness :
    (0:ℚ) < 100 ∧
    (compute (some (setSpend .otherSpending zeroRaw (.num (.fin 0))))).breakdown.lookup
      "points" = some ⟨.fin 0, .fin 0, .fin 0⟩ ∧
    (compute (some (setSpend .otherSpending zeroRaw (.num (.fin 100))))).breakdown.lookup
      "points" = some ⟨.fin (175/100), .fin (150/100), .fin 2⟩ ∧
    jle (Entry.value ⟨.fin 0, .fin 0, .fin 0⟩)
      (Entry.value ⟨.fin (175/100), .fin (150/100), .fin 2⟩) = true :=
  ⟨by norm_num, by norm_num [List.lookup]; try simp, by norm_num [List.lookup]; try simp,
   c7_points_monotone .otherSpending zeroRaw 0 100 (by norm_num) _ _
     (by norm_num [List.lookup]; try simp) (by norm_num [List.lookup]; try simp)⟩

set_option maxHeartbeats 2000000 in
/-- Claim C8: `travelCreditUsage = 1000` is clamped to the `300` cap, and
`pelotonEquipment = 9000` prices bonus points from the capped base `5000`
(value `5000 · 9 · 0.0175 = 787.5`), not from `9000`. -/
theorem c8_clamps :
    (compute (some pTravel1000)).breakdown.lookup "travelCredit" =
      some ⟨.fin 300, .fin 300, .fin 300⟩ ∧
    (compute (some pPeloton9000)).breakdown.lookup "peloton" =
      some ⟨.fin (5000 * 9 * (175/10000)), .fin (5000 * 9 * (175/10000) * (8/10)),
        .fin (5000 * 9 * (175/10000) * (12/10))⟩ ∧
    (5000 * 9 * (175/10000) : ℚ) ≠ 9000 * 9 * (175/10000) := by
  refine ⟨?_, ?_, ?_⟩ <;> (norm_num [List.lookup]; try simp)

set_option maxHeartbeats 1000000 in
/-- Claim C9: sanitization does not enforce non-negativity — a finite negative
spending value passes through unchanged, and with `otherSpending = -1000` the
`points` entry value is `-17.5 < 0` and the returned `totalValue` is
negative. -/
theorem c9_negative_spending :
    sanitizeVal (.num (.fin (-1000))) = .num (-1000) ∧
    (compute (some pNeg1000)).breakdown.lookup "points" =
      some ⟨.fin (-35/2), .fin (-15), .fin (-20)⟩ ∧
    jlt (.fin (-35/2)) (.fin 0) = true ∧
    (compute (some pNeg1000)).totalValue = .fin (-35/2) ∧
    jlt (compute (some pNeg1000)).totalValue (.fin 0) = true := by
  refine ⟨?_, ?_, ?_, ?_, ?_⟩ <;> (norm_num [List.lookup]; try simp)

set_option maxHeartbeats 1000000 in
/-- Claim C10 counterexample: with `otherSpending = -1000` the `points` entry
has `min = -15` and `value = -17.5`, so `min ≤ value` FAILS (the band is
reversed for a negative points subtotal). -/
theorem c10_counterexample :
    (compute (some pNeg1000)).breakdown.lookup "points" =
      some ⟨.fin (-35/2), .fin (-15), .fin (-20)⟩ ∧
    jle (JsNum.fin (-15)) (JsNum.fin (-35/2)) = false := by
  constructor
  · norm_num [List.lookup]; try simp
  · norm_num

/-- Claim C10 amended: whenever the points subtotal is non-negative (in
particular for all non-negative spending inputs), the band ordering holds:
`minROI ≤ roi ≤ maxROI` and every breakdown entry has `min ≤ value ≤ max`. -/
theorem c10_band_ordering (p : RawProfile)
    (h : jle (.fin 0) (totalPointsJ (validateInputs p)) = true) :
    jle (compute (some p)).minROI (compute (some p)).roi = true ∧
    jle (compute (some p)).roi (compute (some p)).maxROI = true ∧
    ∀ kv ∈ (compute (some p)).breakdown,
      jle kv.2.min kv.2.value = true ∧ jle kv.2.value kv.2.max = true := by
  rcases compute_cases p with hc | ⟨t, htp, hc⟩
  · rw [hc]
    refine ⟨by norm_num, by norm_num, fun kv hkv => ?_⟩
    simp [fallbackResults] at hkv
  · rw [htp] at h
    have h0 : 0 ≤ t := jle_fin_iff.1 h
    obtain ⟨-, ht1, ht2⟩ := totalPoints_fin htp
    have hno := @breakdown_nnf_ord (validateInputs p)
      (qualifiesForHighSpender p) t ht1 ht2 h0
    have hminNN : NNF (sumMins (buildBreakdown (validateInputs p)
        (qualifiesForHighSpender p) (.fin t))) := by
      have hx := @sum_min_jRange (validateInputs p)
        (qualifiesForHighSpender p) t ht1 ht2
      rwa [min_eq_right (mul_nonneg h0 (by norm_num [pvMin]))] at hx
    have hvalNN : NNF (sumValues (buildBreakdown (validateInputs p)
        (qualifiesForHighSpender p) (.fin t))) := by
      have hx := @sum_value_jRange (validateInputs p)
        (qualifiesForHighSpender p) t ht1 ht2
      rwa [min_eq_right (mul_nonneg h0 (by norm_num [pvAvg]))] at hx
    have hmaxNN : NNF (sumMaxs (buildBreakdown (validateInputs p)
        (qualifiesForHighSpender p) (.fin t))) := by
      have hx := @sum_max_jRange (validateInputs p)
        (qualifiesForHighSpender p) t ht1 ht2
      rwa [min_eq_right (mul_nonneg h0 (by norm_num [pvMax]))] at hx
    have hzero : NNF (JsNum.fin 0) := Or.inr ⟨0, rfl, le_rfl, OVER_pos⟩
    have hminval : jle (sumMins (buildBreakdown (validateInputs p)
        (qualifiesForHighSpender p) (.fin t)))
        (sumValues (buildBreakdown (validateInputs p)
        (qualifiesForHighSpender p) (.fin t))) = true := by
      rw [sumMins, sumValues]
      exact foldl_plain_mono _ _ _ _ _ hzero hzero (jle_fin_iff.2 le_rfl)
        (fun kv hkv => ⟨⟨(hno kv hkv).1.2.1, (hno kv hkv).1.1⟩, (hno kv hkv).2.1⟩)
    have hvalmax : jle (sumValues (buildBreakdown (validateInputs p)
        (qualifiesForHighSpender p) (.fin t)))
        (sumMaxs (buildBreakdown (validateInputs p)
        (qualifiesForHighSpender p) (.fin t))) = true := by
      rw [sumValues, sumMaxs]
      exact foldl_plain_mono _ _ _ _ _ hzero hzero (jle_fin_iff.2 le_rfl)
        (fun kv hkv => ⟨⟨(hno kv hkv).1.1, (hno kv hkv).1.2.2⟩, (hno kv hkv).2.2⟩)
    rw [hc]
    refine ⟨?_, ?_, ?_⟩
    · rw [assemble_minROI ht1 ht2, assemble_roi ht1 ht2]
      exact roiValue_mono hminNN hvalNN hminval
    · rw [assemble_roi ht1 ht2, assemble_maxROI ht1 ht2]
      exact roiValue_mono hvalNN hmaxNN hvalmax
    · rw [assemble_breakdown]
      exact fun kv hkv => (hno kv hkv).2

set_option maxHeartbeats 1000000 in
/-- Witness for the amended C10 at the default profile. -/
theorem c10_band_ordering_witness :
    jle (.fin 0) (totalPointsJ (validateInputs defaultInputs)) = true ∧
    (jle (compute (some defaultInputs)).minROI (compute (some defaultInputs)).roi = true ∧
     jle (compute (some defaultInputs)).roi (compute (some defaultInputs)).maxROI = true ∧
     ∀ kv ∈ (compute (some defaultInputs)).breakdown,
       jle kv.2.min kv.2.value = true ∧ jle kv.2.value kv.2.max = true) :=
  ⟨by norm_num, c10_band_ordering defaultInputs (by norm_num)⟩
